import Mathlib

/-!
Shallow embedding of the telegram_scrapper repository.

Source files modelled here:
  * `src/app/src/utils/db.py`                 — class `Database` (the persistence gateway)
  * `src/app/src/utils/tg_client.py`          — class `TelegramScrapper` (the remote source adapter)
  * `src/app/src/utils/attachment_handler.py` — class `AttachmentHandler` (the attachment materializer)
  * `src/app/src/main.py`                     — class `Main` (the sync orchestrator, `Main.run`)
  * `src/app/src/utils/config.py`             — module-level configuration constants

Modelling conventions:
  * The store (`Store`) holds only committed rows; a rolled-back transaction
    is modelled as leaving the store unchanged.
  * Telegram/PostgreSQL integers are modelled as `Int` (dialog, message, reply
    and attachment ids); `SERIAL` primary keys as `Nat` counters.
  * Timestamps travel through the code only as `strftime`-formatted strings,
    so they are modelled as `String`.
  * Network and database calls that `main.py` wraps in `try/except` can fail;
    those failure points are injected through an `Env` record: `Except Unit`
    results for the Telethon calls and boolean flags for the places where a
    `Database` method can raise (its `cursor()` call sits outside the
    method's own `try` block) or where a caught `psycopg2.Error` makes a
    watermark read return 0.
-/

/-- A row of the `DialogTypes` table: `(serial id, name)`. -/
abbrev DialogTypeRow := Nat × String

/-- A row of the `AttachmentTypes` table: `(serial id, type)`. -/
abbrev AttachmentTypeRow := Nat × String

/-- A row of the `Dialogs` table (`INSERT INTO Dialogs (id, dialogtype_id, name)`). -/
structure DialogRow where
  id : Int
  dialogtype_id : Nat
  name : String
deriving DecidableEq

/-- A row of the `Messages` table
(`INSERT INTO Messages (id, dialog_id, text, created, grouped_id)`). -/
structure MessageRow where
  id : Int
  dialog_id : Int
  text : String
  created : String
  grouped_id : Option Int
deriving DecidableEq

/-- A row of the `Attachments` table
(`INSERT INTO Attachments (id, message_id, dialog_id, type_id, file_path)`). -/
structure AttachmentRow where
  id : Int
  message_id : Int
  dialog_id : Int
  type_id : Nat
  file_path : String
deriving DecidableEq

/-- A row of the `Replies` table (`INSERT INTO Replies (id, main_dialog_id,
main_message_id, reply_to_dialog_id, reply_to_msg_id, content, sender_id, date)`). -/
structure ReplyRow where
  id : Int
  main_dialog_id : Int
  main_message_id : Int
  reply_to_dialog_id : Int
  reply_to_msg_id : Int
  content : String
  sender_id : Option Int
  date : String
deriving DecidableEq

/-- The committed state of the PostgreSQL database used by `Database` (db.py).
`nextDialogTypeId` / `nextAttachmentTypeId` model the `SERIAL` sequences behind
`INSERT ... RETURNING id`. -/
structure Store where
  dialogTypes : List DialogTypeRow
  nextDialogTypeId : Nat
  dialogs : List DialogRow
  messages : List MessageRow
  attachmentTypes : List AttachmentTypeRow
  nextAttachmentTypeId : Nat
  attachments : List AttachmentRow
  replies : List ReplyRow
deriving DecidableEq

/-- `MessageReplies` info of a Telethon message: `message.replies.comments`. -/
structure MsgReplies where
  comments : Bool
deriving DecidableEq

/-- The document media of a Telethon message: `message.document.id` and
`message.file.name` (used to derive the extension hint). -/
structure DocInfo where
  id : Int
  file_name : String
deriving DecidableEq

/-- The slice of a Telethon `Message` object that `main.py`, `tg_client.py` and
`db.py` read: `id`, `message` (text, `None` allowed), `date` (already
`strftime`-formatted in the model), `grouped_id`, the `photo` / `document`
media properties, and the `replies` info. -/
structure Msg where
  id : Int
  message : Option String
  date : String
  grouped_id : Option Int
  photo : Option Int
  document : Option DocInfo
  replies : Option MsgReplies
deriving DecidableEq

/-- One dialog dict produced by `TelegramScrapper.get_dialogs_list`:
`{"_": ..., "id": ..., "title": ...}`; `dialog_type` is the `"_"` key. -/
structure DialogInfo where
  dialog_type : String
  id : Int
  title : String
deriving DecidableEq

/-- One attachment dict produced by `TelegramScrapper.get_message_attachments`:
`{"type", "id", "file", "ext"}`.  The opaque `"file"` handle is not modelled;
`ext` is only populated (and only read) for documents. -/
structure AttDesc where
  type : String
  id : Int
  ext : String
deriving DecidableEq

/-- One reply message of the thread returned by Telethon's `GetRepliesRequest`:
the fields of `thread.messages[i]` that `get_message_replies` reads.
`from_id` is already the numeric peer id (`utils.get_peer_id`). -/
structure RawReply where
  id : Int
  reply_to_msg_id : Int
  channel_id : Int
  message : String
  from_id : Option Int
  date : String
deriving DecidableEq

/-- One reply dict produced by `TelegramScrapper.get_message_replies`. -/
structure ReplyDesc where
  id : Int
  reply_to_message_id : Int
  reply_to_dialog_id : Int
  content : String
  sender_id : Option Int
  date : String
deriving DecidableEq

/-- The value returned by `Database.add_attachment_type`.  On the
fresh-insert branch the source extracts the integer (`cursor.fetchone()[0]`);
on the existing-row branch it returns the raw `cursor.fetchone()` result —
a one-element tuple `(id,)` — because the `[0]` projection is missing.
`row n` models that unextracted tuple, `int n` a plain integer. -/
inductive DbValue where
  | int : Nat → DbValue
  | row : Nat → DbValue
deriving DecidableEq

/-- The integer the database sees when the value is bound into a later INSERT:
psycopg2 adapts the one-element tuple `(n,)` to the SQL scalar `(n)`. -/
def DbValue.toId : DbValue → Nat
  | .int n => n
  | .row n => n

/-- The configuration constants of `utils/config.py` plus the two output
directories handed to `AttachmentHandler`. -/
structure Config where
  debugMode : Bool
  debugChannelId : Int
  debugMessageIdThreshold : Int
  messageFetchLimit : Nat
  replyFetchLimit : Nat
  imagesPath : String
  attachmentsPath : String

/-- The literal values of `utils/config.py` (`DEBUG_MODE = True` as shipped). -/
def defaultConfig : Config :=
  ⟨true, 1380524958, 1345, 50, 5, "/data/images", "/data/attachments"⟩

/-! ## Persistence gateway (`utils/db.py`) -/

/-- `Database.check_and_add_channel`: look the dialog type up by name and
insert it (committing) when absent, then look the dialog up by id and insert
it (committing) when absent.  The title is only written at creation. -/
def check_and_add_channel (st : Store) (dialog_id : Int)
    (dialog_title dialog_type : String) : Store :=
  let p : Nat × Store :=
    match st.dialogTypes.find? (fun q => q.2 == dialog_type) with
    | some q => (q.1, st)
    | none =>
        (st.nextDialogTypeId,
         { st with dialogTypes := st.dialogTypes ++ [(st.nextDialogTypeId, dialog_type)],
                   nextDialogTypeId := st.nextDialogTypeId + 1 })
  let type_id := p.1
  let st1 := p.2
  if st1.dialogs.any (fun d => d.id == dialog_id) then st1
  else { st1 with dialogs := st1.dialogs ++ [⟨dialog_id, type_id, dialog_title⟩] }

/-- One loop iteration of `Database.add_messages`: `INSERT INTO Messages ...
ON CONFLICT (dialog_id, id) DO NOTHING`, with `text = message.message or ""`,
`created = message.date.strftime(...)`, `grouped_id = getattr(..., None)`. -/
def insertMessage (st : Store) (channel_id : Int) (m : Msg) : Store :=
  if st.messages.any (fun r => r.dialog_id == channel_id && r.id == m.id) then st
  else
    { st with messages :=
        st.messages ++ [⟨m.id, channel_id, m.message.getD "", m.date, m.grouped_id⟩] }

/-- `Database.add_messages`: the per-row conflict-ignoring inserts followed by
one commit. -/
def add_messages (st : Store) (channel_id : Int) (messages : List Msg) : Store :=
  messages.foldl (fun s m => insertMessage s channel_id m) st

/-- `MAX(id)` over a list of ids combined with the Python `... or 0` fallback:
0 for the empty list (SQL `NULL`), the maximum otherwise. -/
def listMaxD : List Int → Int
  | [] => 0
  | x :: xs => xs.foldl max x

/-- The value of `SELECT MAX(id) FROM Messages WHERE dialog_id = %s` with the
`or 0` fallback applied. -/
def lastStoredMessageId (st : Store) (dialog_id : Int) : Int :=
  listMaxD ((st.messages.filter (fun r => r.dialog_id == dialog_id)).map (·.id))

/-- `Database.get_last_message_id`.  `err` models a `psycopg2.Error` raised by
the `SELECT`: the method catches it, rolls back (a no-op for a read on the
committed state) and returns 0 instead of propagating. -/
def get_last_message_id (st : Store) (dialog_id : Int) (err : Bool) : Int :=
  if err then 0 else lastStoredMessageId st dialog_id

/-- `Database.add_attachment_type`: look the type up by name; when present,
return the raw fetched row (`cursor.fetchone()` — note the missing `[0]`);
when absent, insert it and return the extracted fresh id
(`cursor.fetchone()[0]`).  The trailing `or 0` changes neither branch: a
non-empty tuple is truthy, and an integer id is returned unchanged unless it
is 0, in which case `0 or 0` is still 0. -/
def add_attachment_type (st : Store) (attachment_type : String) : DbValue × Store :=
  match st.attachmentTypes.find? (fun q => q.2 == attachment_type) with
  | some q => (DbValue.row q.1, st)
  | none =>
      (DbValue.int st.nextAttachmentTypeId,
       { st with
           attachmentTypes := st.attachmentTypes ++ [(st.nextAttachmentTypeId, attachment_type)],
           nextAttachmentTypeId := st.nextAttachmentTypeId + 1 })

/-- `Database.add_attachment`: `INSERT INTO Attachments ... ON CONFLICT (id)
DO NOTHING`. -/
def add_attachment (st : Store) (attachment_id message_id dialog_id : Int)
    (attachment_type_id : Nat) (file_path : String) : Store :=
  if st.attachments.any (fun a => a.id == attachment_id) then st
  else
    { st with attachments :=
        st.attachments ++ [⟨attachment_id, message_id, dialog_id, attachment_type_id, file_path⟩] }

/-- `Database.add_reply`: `INSERT INTO Replies ... ON CONFLICT (id) DO NOTHING`. -/
def add_reply (st : Store) (reply_id main_dialog_id main_message_id
    reply_to_dialog_id reply_to_msg_id : Int) (content : String)
    (sender_id : Option Int) (date : String) : Store :=
  if st.replies.any (fun r => r.id == reply_id) then st
  else
    { st with replies :=
        st.replies ++ [⟨reply_id, main_dialog_id, main_message_id,
                        reply_to_dialog_id, reply_to_msg_id, content, sender_id, date⟩] }

/-- The value of `SELECT MAX(id) FROM Replies WHERE main_dialog_id = %s AND
main_message_id = %s` with the `or 0` fallback applied. -/
def lastStoredReplyId (st : Store) (main_dialog_id main_message_id : Int) : Int :=
  listMaxD ((st.replies.filter
    (fun r => r.main_dialog_id == main_dialog_id && r.main_message_id == main_message_id)).map (·.id))

/-- `Database.get_last_reply_id`.  `err` as in `get_last_message_id`. -/
def get_last_reply_id (st : Store) (main_dialog_id main_message_id : Int) (err : Bool) : Int :=
  if err then 0 else lastStoredReplyId st main_dialog_id main_message_id

/-! ## Remote source adapter (`utils/tg_client.py`) -/

/-- Model of `os.path.splitext(name)[1]`: the suffix starting at the last dot,
empty when there is no dot or every character before that dot is itself a dot
(`".bashrc"` has no extension).  Plain file names (no directory separators)
are assumed, which is what Telethon's `message.file.name` yields. -/
def fileExt (name : String) : String :=
  let rev := name.data.reverse
  let after := rev.takeWhile (fun c => c ≠ '.')
  match rev.dropWhile (fun c => c ≠ '.') with
  | [] => ""
  | _ :: before =>
      if before.all (fun c => c = '.') then ""
      else String.mk ('.' :: after.reverse)

/-- `TelegramScrapper.get_message_attachments`: surface a `"photo"` descriptor
when `message.photo` is set and a `"document"` descriptor (with the extension
hint split off the file name) when `message.document` is set; nothing else is
ever surfaced. -/
def get_message_attachments (m : Msg) : List AttDesc :=
  (match m.photo with
   | some pid => [⟨"photo", pid, ""⟩]
   | none => []) ++
  (match m.document with
   | some d => [⟨"document", d.id, fileExt d.file_name⟩]
   | none => [])

/-- The dict-building loop of `TelegramScrapper.get_message_replies`, applied
to the messages of the fetched thread.  The request itself is issued with
`offset_id=0, max_id=0, min_id=0`, i.e. without any server-side "since"
filter, so the whole thread page is surfaced unfiltered. -/
def get_message_replies (thread : List RawReply) : List ReplyDesc :=
  thread.map (fun r => ⟨r.id, r.reply_to_msg_id, r.channel_id, r.message, r.from_id, r.date⟩)

/-! ## Attachment materializer (`utils/attachment_handler.py`) -/

/-- Model of `os.path.join(dir, name)` for a relative `name`. -/
def pathJoin (dir name : String) : String := dir ++ "/" ++ name

/-- `AttachmentHandler.save_attachment`.  `downloadOk` models whether
`client.download_media` succeeds; when it raises (`OSError` or anything else)
the handler catches the exception and returns `None` (`none` here) — it never
propagates.  Unsupported kinds fall through with `file_path` still `None`. -/
def save_attachment (images_path attachments_path : String) (downloadOk : Bool)
    (attachment : AttDesc) : Option String :=
  if attachment.type == "photo" then
    if downloadOk then some (pathJoin images_path (toString attachment.id ++ ".jpg")) else none
  else if attachment.type == "document" then
    if downloadOk then some (pathJoin attachments_path (toString attachment.id ++ attachment.ext)) else none
  else none

/-! ## Sync orchestrator (`main.py`) -/

/-- The external world of one `Main.run` invocation, fixing every remote
response and every injected failure:

  * `connectOk` — whether `scrapper.connect()` succeeds;
  * `dialogs` — the result of `scrapper.get_dialogs_list()` (`error` = raised);
  * `checkAddFails d` — `database.check_and_add_channel` raises for dialog `d`
    (e.g. `conn.cursor()` fails outside the method's own `try`);
  * `msgWatermarkErr d` — the `SELECT` inside `get_last_message_id` hits a
    caught `psycopg2.Error`, so the call returns 0;
  * `fetchMessages d off lim` — `scrapper.get_new_dialog_messages`
    (`error` = the fetch/save block raises before messages are committed,
    which also covers `get_last_message_id` raising at `conn.cursor()`);
  * `addMessagesFails d` — `database.add_messages` raises at `conn.cursor()`
    before committing anything;
  * `downloadOk a` — whether downloading attachment `a` succeeds;
  * `replyWatermarkErr d m` — caught store error inside `get_last_reply_id`;
  * `fetchReplies d m lim` — the `GetRepliesRequest` call (`error` = raised). -/
structure Env where
  connectOk : Bool
  dialogs : Except Unit (List DialogInfo)
  checkAddFails : Int → Bool
  msgWatermarkErr : Int → Bool
  fetchMessages : Int → Int → Nat → Except Unit (List Msg)
  addMessagesFails : Int → Bool
  downloadOk : Int → Bool
  replyWatermarkErr : Int → Int → Bool
  fetchReplies : Int → Int → Nat → Except Unit (List RawReply)

/-- The body of the attachment loop in `Main.run`: materialize the attachment;
when a path comes back, ensure the attachment type and insert the attachment
row (the type value is passed through exactly as `add_attachment_type`
returned it). -/
def processAttachment (env : Env) (cfg : Config) (dialog_id message_id : Int)
    (st : Store) (att : AttDesc) : Store :=
  match save_attachment cfg.imagesPath cfg.attachmentsPath (env.downloadOk att.id) att with
  | none => st
  | some file_path =>
      match add_attachment_type st att.type with
      | (attachment_type_id, st') =>
          add_attachment st' att.id message_id dialog_id attachment_type_id.toId file_path

/-- The body of the reply loop in `Main.run`: persist the reply only when its
id is strictly greater than the watermark read before the loop. -/
def processReply (dialog_id message_id last_reply_id : Int) (st : Store)
    (reply : ReplyDesc) : Store :=
  if reply.id > last_reply_id then
    add_reply st reply.id dialog_id message_id reply.reply_to_dialog_id
      reply.reply_to_message_id reply.content reply.sender_id reply.date
  else st

/-- The reply block of `Main.run` for one message, applied to the outcome of
the `GetRepliesRequest` call: a raised request is caught at this message
(`st1` is returned unchanged); otherwise the reply watermark is read and the
filtered reply loop runs. -/
def processReplies (env : Env) (dialog_id message_id : Int) (st1 : Store) :
    Except Unit (List RawReply) → Store
  | .error _ => st1
  | .ok thread =>
      let replies := get_message_replies thread
      let last_reply_id :=
        get_last_reply_id st1 dialog_id message_id
          (env.replyWatermarkErr dialog_id message_id)
      replies.foldl (fun s r => processReply dialog_id message_id last_reply_id s r) st1

/-- The `Replies` row that persisting reply `r` of message `message_id` in
channel `dialog_id` produces (the argument list of `database.add_reply` in
`Main.run`). -/
def mkReplyRow (dialog_id message_id : Int) (r : ReplyDesc) : ReplyRow :=
  ⟨r.id, dialog_id, message_id, r.reply_to_dialog_id, r.reply_to_message_id,
   r.content, r.sender_id, r.date⟩

/-- The per-message part of `Main.run`: the attachments block, then — when the
message has a comment thread (`message.replies and message.replies.comments`)
— the reply block. -/
def processMessage (env : Env) (cfg : Config) (dialog_id : Int) (st : Store)
    (message : Msg) : Store :=
  let st1 := (get_message_attachments message).foldl
    (fun s a => processAttachment env cfg dialog_id message.id s a) st
  match message.replies with
  | some ri =>
      if ri.comments then
        processReplies env dialog_id message.id st1
          (env.fetchReplies dialog_id message.id cfg.replyFetchLimit)
      else st1
  | none => st1

/-- The message watermark used for the fetch window of one dialog: the stored
watermark (0 under an injected read error), floored at the debug threshold
when `DEBUG_MODE` is on. -/
def dialogOffset (env : Env) (cfg : Config) (st1 : Store) (dialog_id : Int) : Int :=
  let last0 := get_last_message_id st1 dialog_id (env.msgWatermarkErr dialog_id)
  if cfg.debugMode then max cfg.debugMessageIdThreshold last0 else last0

/-- The message fetch/save block of `Main.run` for one dialog, applied to the
outcome of `get_new_dialog_messages`: an error skips the channel (`continue`),
as does `add_messages` raising before committing; otherwise the batch is
committed and each fetched message is processed. -/
def processFetched (env : Env) (cfg : Config) (dialog_id : Int) (st1 : Store) :
    Except Unit (List Msg) → Store
  | .error _ => st1
  | .ok new_messages =>
      if env.addMessagesFails dialog_id then st1
      else
        let st2 := add_messages st1 dialog_id new_messages
        new_messages.foldl (fun s m => processMessage env cfg dialog_id s m) st2

/-- The per-dialog body of `Main.run`'s channel loop: ensure the channel row
(a failure here skips the channel), compute the fetch window from the stored
watermark, then run the fetch/save block and the per-message loop. -/
def processDialog (env : Env) (cfg : Config) (st : Store) (dlg : DialogInfo) : Store :=
  if env.checkAddFails dlg.id then st
  else
    let st1 := check_and_add_channel st dlg.id dlg.title dlg.dialog_type
    processFetched env cfg dlg.id st1
      (env.fetchMessages dlg.id (dialogOffset env cfg st1 dlg.id) cfg.messageFetchLimit)

/-- `Main.run`: connect (a failure ends the run), list the dialogs (a failure
ends the run), restrict to the debug channel in debug mode, then process each
dialog in order. -/
def run (env : Env) (cfg : Config) (st : Store) : Store :=
  if env.connectOk then
    match env.dialogs with
    | .error _ => st
    | .ok ds =>
        let ds' := if cfg.debugMode then ds.filter (fun d => d.id == cfg.debugChannelId) else ds
        ds'.foldl (fun s d => processDialog env cfg s d) st
  else st

/-! ## Concrete example data (used by witnesses and counterexamples) -/

/-- A fresh, empty database. -/
def emptyStore : Store := ⟨[], 1, [], [], [], 1, [], []⟩

/-- A database whose `AttachmentTypes` table already holds `(1, "photo")`. -/
def photoTypeStore : Store := ⟨[], 1, [], [], [(1, "photo")], 2, [], []⟩

/-- One remote dialog: `{"_": "Channel", "id": 100, "title": "Test"}`. -/
def exampleDialog : DialogInfo := ⟨"Channel", 100, "Test"⟩

/-- A remote session in which nothing fails, one dialog is listed, every
message fetch returns the empty batch and every reply fetch an empty thread. -/
def noFailEnv : Env :=
  ⟨true, .ok [exampleDialog], fun _ => false, fun _ => false,
   fun _ _ _ => .ok [], fun _ => false, fun _ => true, fun _ _ => false,
   fun _ _ _ => .ok []⟩

/-- `noFailEnv` with the transport connection failing. -/
def connectFailEnv : Env := { noFailEnv with connectOk := false }

/-- `noFailEnv` with `check_and_add_channel` raising for dialog 100. -/
def checkAddFailEnv : Env := { noFailEnv with checkAddFails := fun i => i == 100 }

/-- A message (id 1, text "a") carrying a photo (id 7) and a comment thread. -/
def exampleMsg : Msg :=
  ⟨1, some "a", "2024-01-01 00:00:00", none, some 7, none, some ⟨true⟩⟩

/-- A one-reply thread for `exampleMsg`. -/
def exampleThread : List RawReply := [⟨5, 1, 100, "r", some 9, "2024-01-02 00:00:00"⟩]

/-- `noFailEnv` with the reply fetch returning `exampleThread`. -/
def replyEnv : Env := { noFailEnv with fetchReplies := fun _ _ _ => .ok exampleThread }

/-- The shipped configuration with `DEBUG_MODE` switched off. -/
def plainConfig : Config := { defaultConfig with debugMode := false }

/-- A bare message with id 5 and text "a". -/
def msgA : Msg := ⟨5, some "a", "2024-01-01 00:00:00", none, none, none, none⟩

/-- A bare message with id 5 and different text "b". -/
def msgB : Msg := ⟨5, some "b", "2024-01-01 00:00:00", none, none, none, none⟩

/-- A store holding one message (id 3) for dialog 1. -/
def msgStore : Store := ⟨[], 1, [], [⟨3, 1, "t", "2024-01-01 00:00:00", none⟩], [], 1, [], []⟩

/-! ## Basic lemmas about `listMaxD` -/

theorem le_foldl_max (l : List Int) (a : Int) : a ≤ l.foldl max a := by
  induction l generalizing a with
  | nil => exact le_refl a
  | cons x xs ih => exact le_trans (le_max_left a x) (ih (max a x))

theorem foldl_max_mono (l : List Int) {a b : Int} (h : a ≤ b) :
    l.foldl max a ≤ l.foldl max b := by
  induction l generalizing a b with
  | nil => exact h
  | cons x xs ih => exact ih (max_le_max h (le_refl x))

theorem listMaxD_le_append_of_ne_nil (A B : List Int) (h : A ≠ []) :
    listMaxD A ≤ listMaxD (A ++ B) := by
  cases A with
  | nil => exact absurd rfl h
  | cons x xs =>
      simp only [listMaxD, List.cons_append, List.foldl_append]
      exact le_foldl_max B (xs.foldl max x)

theorem listMaxD_nonneg_of_mem (B : List Int) (h : ∀ b ∈ B, 0 ≤ b) :
    0 ≤ listMaxD B := by
  cases B with
  | nil => exact le_refl 0
  | cons x xs =>
      exact le_trans (h x (List.mem_cons_self x xs)) (le_foldl_max xs x)

theorem listMaxD_le_append_of_nonneg (A B : List Int) (h : ∀ b ∈ B, 0 ≤ b) :
    listMaxD A ≤ listMaxD (A ++ B) := by
  cases A with
  | nil => simpa [listMaxD] using listMaxD_nonneg_of_mem B h
  | cons x xs => exact listMaxD_le_append_of_ne_nil (x :: xs) B (by simp)

/-! ## Characterizations of the store operations: each one only appends -/

theorem check_and_add_channel_shape (st : Store) (i : Int) (t ty : String) :
    ∃ dts ndt dls,
      check_and_add_channel st i t ty =
        { st with dialogTypes := st.dialogTypes ++ dts,
                  nextDialogTypeId := ndt,
                  dialogs := st.dialogs ++ dls } := by
  unfold check_and_add_channel
  cases hf : st.dialogTypes.find? (fun q => q.2 == ty) with
  | some q =>
      dsimp only
      split
      · exact ⟨[], st.nextDialogTypeId, [], by simp⟩
      · exact ⟨[], st.nextDialogTypeId, [⟨i, q.1, t⟩], by simp⟩
  | none =>
      dsimp only
      split
      · exact ⟨[(st.nextDialogTypeId, ty)], st.nextDialogTypeId + 1, [], by simp⟩
      · exact ⟨[(st.nextDialogTypeId, ty)], st.nextDialogTypeId + 1,
          [⟨i, st.nextDialogTypeId, t⟩], by simp⟩

theorem insertMessage_shape (st : Store) (ch : Int) (m : Msg) :
    ∃ ms, insertMessage st ch m = { st with messages := st.messages ++ ms } := by
  unfold insertMessage
  split
  · exact ⟨[], by simp⟩
  · exact ⟨[⟨m.id, ch, m.message.getD "", m.date, m.grouped_id⟩], rfl⟩

theorem add_attachment_type_shape (st : Store) (ty : String) :
    ∃ ats nat,
      (add_attachment_type st ty).2 =
        { st with attachmentTypes := st.attachmentTypes ++ ats,
                  nextAttachmentTypeId := nat } := by
  unfold add_attachment_type
  cases hf : st.attachmentTypes.find? (fun q => q.2 == ty) with
  | some q => exact ⟨[], st.nextAttachmentTypeId, by simp⟩
  | none => exact ⟨[(st.nextAttachmentTypeId, ty)], st.nextAttachmentTypeId + 1, rfl⟩

theorem add_attachment_shape (st : Store) (a mi di : Int) (tid : Nat) (fp : String) :
    ∃ l, add_attachment st a mi di tid fp = { st with attachments := st.attachments ++ l } := by
  unfold add_attachment
  split
  · exact ⟨[], by simp⟩
  · exact ⟨[⟨a, mi, di, tid, fp⟩], rfl⟩

theorem add_reply_shape (st : Store) (r md mm rd rm : Int) (c : String)
    (s : Option Int) (d : String) :
    ∃ l, add_reply st r md mm rd rm c s d = { st with replies := st.replies ++ l } := by
  unfold add_reply
  split
  · exact ⟨[], by simp⟩
  · exact ⟨[⟨r, md, mm, rd, rm, c, s, d⟩], rfl⟩

/-! ## The append-only preorder on stores -/

/-- `Extends st st'` says every table of `st'` is the corresponding table of
`st` with rows appended: no row is ever updated or deleted. -/
def Extends (st st' : Store) : Prop :=
  (∃ a, st'.dialogTypes = st.dialogTypes ++ a) ∧
  (∃ b, st'.dialogs = st.dialogs ++ b) ∧
  (∃ c, st'.messages = st.messages ++ c) ∧
  (∃ d, st'.attachmentTypes = st.attachmentTypes ++ d) ∧
  (∃ e, st'.attachments = st.attachments ++ e) ∧
  (∃ f, st'.replies = st.replies ++ f)

theorem Extends.rfl (st : Store) : Extends st st :=
  ⟨⟨[], by simp⟩, ⟨[], by simp⟩, ⟨[], by simp⟩, ⟨[], by simp⟩, ⟨[], by simp⟩, ⟨[], by simp⟩⟩

theorem Extends.trans {s1 s2 s3 : Store} (h1 : Extends s1 s2) (h2 : Extends s2 s3) :
    Extends s1 s3 := by
  obtain ⟨⟨a1, ha1⟩, ⟨b1, hb1⟩, ⟨c1, hc1⟩, ⟨d1, hd1⟩, ⟨e1, he1⟩, ⟨f1, hf1⟩⟩ := h1
  obtain ⟨⟨a2, ha2⟩, ⟨b2, hb2⟩, ⟨c2, hc2⟩, ⟨d2, hd2⟩, ⟨e2, he2⟩, ⟨f2, hf2⟩⟩ := h2
  exact ⟨⟨a1 ++ a2, by simp [ha2, ha1]⟩, ⟨b1 ++ b2, by simp [hb2, hb1]⟩,
         ⟨c1 ++ c2, by simp [hc2, hc1]⟩, ⟨d1 ++ d2, by simp [hd2, hd1]⟩,
         ⟨e1 ++ e2, by simp [he2, he1]⟩, ⟨f1 ++ f2, by simp [hf2, hf1]⟩⟩

theorem extends_check_and_add (st : Store) (i : Int) (t ty : String) :
    Extends st (check_and_add_channel st i t ty) := by
  obtain ⟨dts, ndt, dls, h⟩ := check_and_add_channel_shape st i t ty
  rw [h]
  exact ⟨⟨dts, by simp⟩, ⟨dls, by simp⟩, ⟨[], by simp⟩, ⟨[], by simp⟩, ⟨[], by simp⟩, ⟨[], by simp⟩⟩

theorem extends_insertMessage (st : Store) (ch : Int) (m : Msg) :
    Extends st (insertMessage st ch m) := by
  obtain ⟨ms, h⟩ := insertMessage_shape st ch m
  rw [h]
  exact ⟨⟨[], by simp⟩, ⟨[], by simp⟩, ⟨ms, by simp⟩, ⟨[], by simp⟩, ⟨[], by simp⟩, ⟨[], by simp⟩⟩

theorem extends_add_attachment_type (st : Store) (ty : String) :
    Extends st (add_attachment_type st ty).2 := by
  obtain ⟨ats, nat, h⟩ := add_attachment_type_shape st ty
  rw [h]
  exact ⟨⟨[], by simp⟩, ⟨[], by simp⟩, ⟨[], by simp⟩, ⟨ats, by simp⟩, ⟨[], by simp⟩, ⟨[], by simp⟩⟩

theorem extends_add_attachment (st : Store) (a mi di : Int) (tid : Nat) (fp : String) :
    Extends st (add_attachment st a mi di tid fp) := by
  obtain ⟨l, h⟩ := add_attachment_shape st a mi di tid fp
  rw [h]
  exact ⟨⟨[], by simp⟩, ⟨[], by simp⟩, ⟨[], by simp⟩, ⟨[], by simp⟩, ⟨l, by simp⟩, ⟨[], by simp⟩⟩

theorem extends_add_reply (st : Store) (r md mm rd rm : Int) (c : String)
    (s : Option Int) (d : String) :
    Extends st (add_reply st r md mm rd rm c s d) := by
  obtain ⟨l, h⟩ := add_reply_shape st r md mm rd rm c s d
  rw [h]
  exact ⟨⟨[], by simp⟩, ⟨[], by simp⟩, ⟨[], by simp⟩, ⟨[], by simp⟩, ⟨[], by simp⟩, ⟨l, by simp⟩⟩

theorem extends_foldl {α : Type} (f : Store → α → Store)
    (h : ∀ st x, Extends st (f st x)) :
    ∀ (l : List α) (st : Store), Extends st (l.foldl f st) := by
  intro l
  induction l with
  | nil => intro st; exact Extends.rfl st
  | cons x xs ih => intro st; exact Extends.trans (h st x) (ih (f st x))

theorem extends_processAttachment (env : Env) (cfg : Config) (d mi : Int)
    (st : Store) (a : AttDesc) : Extends st (processAttachment env cfg d mi st a) := by
  unfold processAttachment
  split
  · exact Extends.rfl st
  · rename_i fp heq
    have h2 : Extends st (add_attachment_type st a.type).2 :=
      extends_add_attachment_type st a.type
    exact Extends.trans h2 (extends_add_attachment _ a.id mi d _ _)

theorem extends_processReply (d mi last : Int) (st : Store) (r : ReplyDesc) :
    Extends st (processReply d mi last st r) := by
  unfold processReply
  split
  · exact extends_add_reply st r.id d mi r.reply_to_dialog_id r.reply_to_message_id
      r.content r.sender_id r.date
  · exact Extends.rfl st

theorem extends_add_messages (st : Store) (ch : Int) (l : List Msg) :
    Extends st (add_messages st ch l) :=
  extends_foldl _ (fun s m => extends_insertMessage s ch m) l st

theorem extends_processReplies (env : Env) (d mi : Int) (st1 : Store)
    (r : Except Unit (List RawReply)) : Extends st1 (processReplies env d mi st1 r) := by
  cases r with
  | error e => exact Extends.rfl st1
  | ok thread =>
      exact extends_foldl _ (fun s r => extends_processReply d mi _ s r) _ st1

theorem extends_processMessage (env : Env) (cfg : Config) (d : Int)
    (st : Store) (m : Msg) : Extends st (processMessage env cfg d st m) := by
  unfold processMessage
  have h1 : Extends st ((get_message_attachments m).foldl
      (fun s a => processAttachment env cfg d m.id s a) st) :=
    extends_foldl _ (fun s a => extends_processAttachment env cfg d m.id s a) _ st
  cases m.replies with
  | none => exact h1
  | some ri =>
      dsimp only
      split
      · exact Extends.trans h1 (extends_processReplies env d m.id _ _)
      · exact h1

theorem extends_processFetched (env : Env) (cfg : Config) (d : Int) (st1 : Store)
    (r : Except Unit (List Msg)) : Extends st1 (processFetched env cfg d st1 r) := by
  cases r with
  | error e => exact Extends.rfl st1
  | ok new_messages =>
      by_cases h : env.addMessagesFails d
      · simp only [processFetched, h, if_true]
        exact Extends.rfl st1
      · simp only [processFetched, h, if_false]
        exact Extends.trans (extends_add_messages st1 d new_messages)
          (extends_foldl _ (fun s m => extends_processMessage env cfg d s m) _ _)

theorem extends_processDialog (env : Env) (cfg : Config) (st : Store)
    (dlg : DialogInfo) : Extends st (processDialog env cfg st dlg) := by
  unfold processDialog
  split
  · exact Extends.rfl st
  · exact Extends.trans (extends_check_and_add st dlg.id dlg.title dlg.dialog_type)
      (extends_processFetched env cfg dlg.id _ _)

theorem extends_run (env : Env) (cfg : Config) (st : Store) :
    Extends st (run env cfg st) := by
  unfold run
  split
  · cases henv : env.dialogs with
    | error e => exact Extends.rfl st
    | ok ds =>
        exact extends_foldl _ (fun s d => extends_processDialog env cfg s d) _ st
  · exact Extends.rfl st

/-! ## Table-preservation helpers -/

theorem foldl_preserve {α β : Type _} (f : Store → α → Store) (g : Store → β)
    (h : ∀ s x, g (f s x) = g s) :
    ∀ (l : List α) (st : Store), g (l.foldl f st) = g st := by
  intro l
  induction l with
  | nil => intro st; rfl
  | cons x xs ih => intro st; rw [List.foldl_cons, ih (f st x), h st x]

theorem processReply_attachments (d mi last : Int) (st : Store) (r : ReplyDesc) :
    (processReply d mi last st r).attachments = st.attachments := by
  unfold processReply
  split
  · obtain ⟨l, h⟩ := add_reply_shape st r.id d mi r.reply_to_dialog_id
      r.reply_to_message_id r.content r.sender_id r.date
    rw [h]
  · rfl

theorem processReplies_attachments (env : Env) (d mi : Int) (st : Store)
    (r : Except Unit (List RawReply)) :
    (processReplies env d mi st r).attachments = st.attachments := by
  cases r with
  | error e => rfl
  | ok thread =>
      exact foldl_preserve _ _ (fun s x => processReply_attachments d mi _ s x) _ st

theorem add_attachment_mem (st : Store) (aid mi di : Int) (tid : Nat) (fp : String)
    (row : AttachmentRow) (h : row ∈ (add_attachment st aid mi di tid fp).attachments) :
    row ∈ st.attachments ∨ row = ⟨aid, mi, di, tid, fp⟩ := by
  revert h
  unfold add_attachment
  split
  · exact fun h => Or.inl h
  · intro h
    rcases List.mem_append.mp h with h1 | h1
    · exact Or.inl h1
    · exact Or.inr (List.mem_singleton.mp h1)

theorem processAttachment_attachments_mem (env : Env) (cfg : Config) (d mi : Int)
    (st : Store) (a : AttDesc) (row : AttachmentRow)
    (h : row ∈ (processAttachment env cfg d mi st a).attachments) :
    row ∈ st.attachments ∨ (row.id = a.id ∧ row.message_id = mi ∧ row.dialog_id = d) := by
  revert h
  unfold processAttachment
  split
  · exact fun h => Or.inl h
  · rename_i fp heq
    intro h
    obtain ⟨ats, nat, hshape⟩ := add_attachment_type_shape st a.type
    have h2 := add_attachment_mem (add_attachment_type st a.type).2 a.id mi d
      (add_attachment_type st a.type).1.toId fp row h
    rcases h2 with h1 | h1
    · rw [hshape] at h1; exact Or.inl h1
    · rcases h1 with rfl; exact Or.inr ⟨rfl, rfl, rfl⟩

theorem attachments_fold_mem (env : Env) (cfg : Config) (d mi : Int) :
    ∀ (atts : List AttDesc) (st : Store) (row : AttachmentRow),
      row ∈ ((atts.foldl (fun s a => processAttachment env cfg d mi s a) st).attachments) →
      row ∈ st.attachments ∨
        ∃ a ∈ atts, row.id = a.id ∧ row.message_id = mi ∧ row.dialog_id = d := by
  intro atts
  induction atts with
  | nil => intro st row h; exact Or.inl h
  | cons a as ih =>
      intro st row h
      rcases ih (processAttachment env cfg d mi st a) row h with h1 | ⟨b, hb, hbid⟩
      · rcases processAttachment_attachments_mem env cfg d mi st a row h1 with h2 | h2
        · exact Or.inl h2
        · exact Or.inr ⟨a, List.mem_cons_self a as, h2⟩
      · exact Or.inr ⟨b, List.mem_cons_of_mem a hb, hbid⟩

theorem processMessage_attachments_mem (env : Env) (cfg : Config) (d : Int)
    (st : Store) (m : Msg) (row : AttachmentRow)
    (h : row ∈ (processMessage env cfg d st m).attachments) :
    row ∈ st.attachments ∨
      ∃ a ∈ get_message_attachments m,
        row.id = a.id ∧ row.message_id = m.id ∧ row.dialog_id = d := by
  revert h
  unfold processMessage
  have key := attachments_fold_mem env cfg d m.id (get_message_attachments m) st row
  cases m.replies with
  | none => exact key
  | some ri =>
      dsimp only
      split
      · rw [processReplies_attachments]
        exact key
      · exact key

/-! ## Claim C5 (code bug): the return value of `add_attachment_type` -/

/-- C5: the claim says `add_attachment_type` returns the integer id of the
`AttachmentTypes` row bearing the given name in both branches.  The code
contradicts its own docstring and `-> int` annotation: on the existing-row
branch it returns the raw `cursor.fetchone()` one-element tuple (modelled
`DbValue.row`), never a plain integer; only the fresh-insert branch extracts
the integer id.  Evaluated here at an explicit input. -/
theorem add_attachment_type_returns_raw_row :
    (add_attachment_type photoTypeStore "photo").1 = DbValue.row 1 ∧
    (∀ n : Nat, (add_attachment_type photoTypeStore "photo").1 ≠ DbValue.int n) ∧
    (add_attachment_type emptyStore "photo").1 = DbValue.int 1 := by
  refine ⟨by decide, ?_, by decide⟩
  intro n h
  rw [(by decide : (add_attachment_type photoTypeStore "photo").1 = DbValue.row 1)] at h
  exact DbValue.noConfusion h

/-! ## Claim C6: conflict-safe message insert -/

theorem insertMessage_present (st : Store) (ch : Int) (m : Msg)
    (h : st.messages.any (fun r => r.dialog_id == ch && r.id == m.id) = true) :
    insertMessage st ch m = st := by
  simp [insertMessage, h]

theorem insertMessage_absent (st : Store) (ch : Int) (m : Msg)
    (h : st.messages.any (fun r => r.dialog_id == ch && r.id == m.id) = false) :
    insertMessage st ch m =
      { st with messages :=
          st.messages ++ [⟨m.id, ch, m.message.getD "", m.date, m.grouped_id⟩] } := by
  simp [insertMessage, h]

/-- C6: inserting a message with the same `(dialog_id, id)` key twice — same
or different text — leaves exactly one `Messages` row for that key, and the
second insert changes nothing (`ON CONFLICT (dialog_id, id) DO NOTHING`). -/
theorem message_insert_conflict_safe (st : Store) (ch : Int) (m1 m2 : Msg)
    (hid : m1.id = m2.id)
    (h0 : (st.messages.filter (fun r => r.dialog_id == ch && r.id == m1.id)).length = 0) :
    add_messages (add_messages st ch [m1]) ch [m2] = add_messages st ch [m1] ∧
    ((add_messages st ch [m1]).messages.filter
        (fun r => r.dialog_id == ch && r.id == m1.id)).length = 1 := by
  have hnil : st.messages.filter (fun r => r.dialog_id == ch && r.id == m1.id) = [] :=
    List.length_eq_zero.mp h0
  have hany : st.messages.any (fun r => r.dialog_id == ch && r.id == m1.id) = false := by
    rw [List.any_eq_false]
    intro x hx
    exact List.filter_eq_nil_iff.mp hnil x hx
  have h1 : add_messages st ch [m1] = insertMessage st ch m1 := rfl
  have h2 := insertMessage_absent st ch m1 hany
  constructor
  · show insertMessage (add_messages st ch [m1]) ch m2 = add_messages st ch [m1]
    rw [h1, h2]
    apply insertMessage_present
    rw [← hid]
    simp [List.any_append, hany]
  · rw [h1, h2]
    simp [List.filter_append, hnil]

/-- C6 witness: the claim's own instance — key `(dialog_id 10, id 5)`, texts
"a" then "b". -/
theorem message_insert_conflict_safe_witness :
    add_messages (add_messages emptyStore 10 [msgA]) 10 [msgB] =
      add_messages emptyStore 10 [msgA] ∧
    ((add_messages emptyStore 10 [msgA]).messages.filter
        (fun r => r.dialog_id == 10 && r.id == msgA.id)).length = 1 :=
  message_insert_conflict_safe emptyStore 10 msgA msgB rfl (by decide)

/-! ## Claim C8: attachment-kind filtering at the adapter boundary -/

/-- C8: `get_message_attachments` only ever surfaces descriptors whose type
tag is `"photo"` or `"document"` (no other kind exists in its output), and
every `Attachments` row the message loop writes stems from one of those
surfaced descriptors — so no other kind ever reaches the materializer or
produces a row. -/
theorem attachment_kinds_filtered :
    (∀ (m : Msg) (a : AttDesc), a ∈ get_message_attachments m →
        a.type = "photo" ∨ a.type = "document") ∧
    (∀ (env : Env) (cfg : Config) (d : Int) (st : Store) (m : Msg)
        (row : AttachmentRow), row ∈ (processMessage env cfg d st m).attachments →
        row ∈ st.attachments ∨ ∃ a ∈ get_message_attachments m, row.id = a.id) := by
  constructor
  · intro m a h
    unfold get_message_attachments at h
    rcases List.mem_append.mp h with h1 | h1
    · cases hp : m.photo with
      | none => rw [hp] at h1; cases h1
      | some pid =>
          rw [hp] at h1
          rcases List.mem_singleton.mp h1 with rfl
          exact Or.inl rfl
    · cases hd : m.document with
      | none => rw [hd] at h1; cases h1
      | some di =>
          rw [hd] at h1
          rcases List.mem_singleton.mp h1 with rfl
          exact Or.inr rfl
  · intro env cfg d st m row h
    rcases processMessage_attachments_mem env cfg d st m row h with h1 | ⟨a, ha, hid, _, _⟩
    · exact Or.inl h1
    · exact Or.inr ⟨a, ha, hid⟩

/-- C8 witness: the photo descriptor surfaced for `exampleMsg` is tagged
`"photo"` or `"document"`. -/
theorem attachment_kinds_filtered_witness :
    (⟨"photo", 7, ""⟩ : AttDesc).type = "photo" ∨
    (⟨"photo", 7, ""⟩ : AttDesc).type = "document" :=
  attachment_kinds_filtered.1 exampleMsg ⟨"photo", 7, ""⟩ (by decide)

/-! ## Claim C9: the materializer contract -/

/-- C9: `save_attachment` returns `<images_path>/<id>.jpg` for `"photo"` and
`<attachments_path>/<id><ext>` for `"document"` when the download succeeds,
and `none` — its return type is `Option String`, it propagates nothing — on
download failure or for any other kind. -/
theorem save_attachment_contract (ip ap : String) (ok : Bool) (a : AttDesc) :
    (a.type = "photo" → save_attachment ip ap ok a =
        if ok then some (pathJoin ip (toString a.id ++ ".jpg")) else none) ∧
    (a.type = "document" → save_attachment ip ap ok a =
        if ok then some (pathJoin ap (toString a.id ++ a.ext)) else none) ∧
    (a.type ≠ "photo" → a.type ≠ "document" → save_attachment ip ap ok a = none) ∧
    (ok = false → save_attachment ip ap ok a = none) := by
  refine ⟨?_, ?_, ?_, ?_⟩
  · intro h; simp [save_attachment, h]
  · intro h; simp [save_attachment, h]
  · intro h1 h2; simp [save_attachment, beq_iff_eq, h1, h2]
  · intro h
    subst h
    unfold save_attachment
    split
    · rfl
    · split
      · rfl
      · rfl

/-- C9 witness: a successful photo download lands in the images directory
under `<id>.jpg`. -/
theorem save_attachment_contract_witness :
    save_attachment "img" "att" true ⟨"photo", 7, ""⟩ =
      if true then some (pathJoin "img" (toString (7 : Int) ++ ".jpg")) else none :=
  (save_attachment_contract "img" "att" true ⟨"photo", 7, ""⟩).1 rfl

/-! ## Claim C10: watermark reads degrade to 0 on store errors -/

/-- C10: when the underlying `SELECT MAX(id)` raises a database error, both
watermark readers roll back and return 0 instead of propagating; since every
non-error watermark is compared with `<` to choose the fetch window, any id
eligible at a non-negative true watermark stays eligible at the fallback 0 —
the window widens to the scope's full (positive-id) history. -/
theorem watermark_read_error_returns_zero (st : Store) (d mid : Int) :
    get_last_message_id st d true = 0 ∧
    get_last_reply_id st d mid true = 0 ∧
    (∀ i : Int, 0 ≤ get_last_message_id st d false →
        get_last_message_id st d false < i → 0 < i) ∧
    (∀ i : Int, 0 ≤ get_last_reply_id st d mid false →
        get_last_reply_id st d mid false < i → 0 < i) :=
  ⟨rfl, rfl, fun _ h1 h2 => lt_of_le_of_lt h1 h2, fun _ h1 h2 => lt_of_le_of_lt h1 h2⟩

/-- C10 witness: on `msgStore` (true watermark 3 for dialog 1), the error
path returns 0 and id 5 stays in the widened window. -/
theorem watermark_read_error_returns_zero_witness :
    get_last_message_id msgStore 1 true = 0 ∧ (0 : Int) < 5 :=
  ⟨(watermark_read_error_returns_zero msgStore 1 2).1,
   (watermark_read_error_returns_zero msgStore 1 2).2.2.1 5 (by decide) (by decide)⟩

/-! ## Claim C7: client-side reply filtering -/

theorem add_reply_mem (st : Store) (rid md mm rd rm : Int) (c : String)
    (s : Option Int) (dt : String) (row : ReplyRow)
    (h : row ∈ (add_reply st rid md mm rd rm c s dt).replies) :
    row ∈ st.replies ∨ row = ⟨rid, md, mm, rd, rm, c, s, dt⟩ := by
  revert h
  unfold add_reply
  split
  · exact fun h => Or.inl h
  · intro h
    rcases List.mem_append.mp h with h1 | h1
    · exact Or.inl h1
    · exact Or.inr (List.mem_singleton.mp h1)

theorem processReply_mem (d mid last : Int) (st : Store) (r : ReplyDesc)
    (row : ReplyRow) (h : row ∈ (processReply d mid last st r).replies) :
    row ∈ st.replies ∨ (last < r.id ∧ row = mkReplyRow d mid r) := by
  revert h
  unfold processReply
  split
  · rename_i hgt
    intro h
    rcases add_reply_mem st r.id d mid r.reply_to_dialog_id r.reply_to_message_id
      r.content r.sender_id r.date row h with h1 | h1
    · exact Or.inl h1
    · exact Or.inr ⟨hgt, h1⟩
  · exact fun h => Or.inl h

theorem reply_fold_mem (d mid last : Int) :
    ∀ (rs : List ReplyDesc) (st : Store) (row : ReplyRow),
      row ∈ ((rs.foldl (fun s r => processReply d mid last s r) st).replies) →
      row ∈ st.replies ∨ ∃ r ∈ rs, last < r.id ∧ row = mkReplyRow d mid r := by
  intro rs
  induction rs with
  | nil => intro st row h; exact Or.inl h
  | cons r rest ih =>
      intro st row h
      rcases ih (processReply d mid last st r) row h with h1 | ⟨r', hr', hlt, heq⟩
      · rcases processReply_mem d mid last st r row h1 with h2 | h2
        · exact Or.inl h2
        · exact Or.inr ⟨r, List.mem_cons_self r rest, h2⟩
      · exact Or.inr ⟨r', List.mem_cons_of_mem r hr', hlt, heq⟩

theorem add_attachment_type_replies (st : Store) (ty : String) :
    (add_attachment_type st ty).2.replies = st.replies := by
  obtain ⟨ats, nat, h⟩ := add_attachment_type_shape st ty
  rw [h]

theorem add_attachment_replies (st : Store) (a mi di : Int) (tid : Nat) (fp : String) :
    (add_attachment st a mi di tid fp).replies = st.replies := by
  obtain ⟨l, h⟩ := add_attachment_shape st a mi di tid fp
  rw [h]

theorem processAttachment_replies (env : Env) (cfg : Config) (d mi : Int)
    (st : Store) (a : AttDesc) :
    (processAttachment env cfg d mi st a).replies = st.replies := by
  unfold processAttachment
  split
  · rfl
  · rw [add_attachment_replies, add_attachment_type_replies]

theorem attachments_fold_replies (env : Env) (cfg : Config) (d mi : Int)
    (atts : List AttDesc) (st : Store) :
    ((atts.foldl (fun s a => processAttachment env cfg d mi s a) st).replies) = st.replies :=
  foldl_preserve _ _ (fun s a => processAttachment_replies env cfg d mi s a) atts st

/-- C7: only replies with id strictly above the stored reply watermark are
persisted — every new `Replies` row written while processing a message stems
from a fetched reply whose id exceeds the watermark the orchestrator read —
and the filter is client-side: the adapter (`get_message_replies`) surfaces
the whole fetched thread, id for id, with no filtering of its own. -/
theorem reply_filtering_client_side (env : Env) (cfg : Config) (d : Int)
    (st : Store) (m : Msg) (ri : MsgReplies) (thread : List RawReply)
    (hri : m.replies = some ri) (hc : ri.comments = true)
    (hf : env.fetchReplies d m.id cfg.replyFetchLimit = .ok thread) :
    ((get_message_replies thread).map (fun r => r.id) = thread.map (fun r => r.id)) ∧
    (∀ row ∈ (processMessage env cfg d st m).replies,
        row ∈ st.replies ∨
          ∃ r ∈ get_message_replies thread,
            get_last_reply_id st d m.id (env.replyWatermarkErr d m.id) < r.id ∧
            row = mkReplyRow d m.id r) := by
  constructor
  · simp [get_message_replies]
  · intro row h
    have hatt : ∀ s : Store,
        ((get_message_attachments m).foldl
          (fun s a => processAttachment env cfg d m.id s a) s).replies = s.replies :=
      fun s => attachments_fold_replies env cfg d m.id (get_message_attachments m) s
    revert h
    unfold processMessage
    rw [hri]
    dsimp only
    rw [hc]
    simp only [if_true]
    rw [hf]
    unfold processReplies
    dsimp only
    intro h
    have hwm : get_last_reply_id
        ((get_message_attachments m).foldl
          (fun s a => processAttachment env cfg d m.id s a) st) d m.id
        (env.replyWatermarkErr d m.id) =
        get_last_reply_id st d m.id (env.replyWatermarkErr d m.id) := by
      unfold get_last_reply_id lastStoredReplyId
      rw [hatt st]
    rcases reply_fold_mem d m.id _ (get_message_replies thread) _ row h with h1 | ⟨r, hr, hlt, heq⟩
    · rw [hatt st] at h1
      exact Or.inl h1
    · rw [hwm] at hlt
      exact Or.inr ⟨r, hr, hlt, heq⟩

/-- C7 witness: the adapter surfaces `exampleThread` unfiltered. -/
theorem reply_filtering_client_side_witness :
    (get_message_replies exampleThread).map (fun r => r.id) =
      exampleThread.map (fun r => r.id) :=
  (reply_filtering_client_side replyEnv plainConfig 100 emptyStore exampleMsg ⟨true⟩
    exampleThread rfl rfl rfl).1

/-! ## Claim C3: failure containment -/

theorem processDialog_checkAddFails (env : Env) (cfg : Config) (st : Store)
    (b : DialogInfo) (hb : env.checkAddFails b.id = true) :
    processDialog env cfg st b = st := by
  simp [processDialog, hb]

theorem processDialog_msg_block_fails (env : Env) (cfg : Config) (st : Store)
    (b : DialogInfo) (hb : env.checkAddFails b.id = false)
    (hf : env.fetchMessages b.id
        (dialogOffset env cfg (check_and_add_channel st b.id b.title b.dialog_type) b.id)
        cfg.messageFetchLimit = .error () ∨
      env.addMessagesFails b.id = true) :
    processDialog env cfg st b = check_and_add_channel st b.id b.title b.dialog_type := by
  unfold processDialog
  rw [hb]
  simp only [Bool.false_eq_true, if_false]
  show processFetched env cfg b.id (check_and_add_channel st b.id b.title b.dialog_type)
      (env.fetchMessages b.id
        (dialogOffset env cfg (check_and_add_channel st b.id b.title b.dialog_type) b.id)
        cfg.messageFetchLimit) =
    check_and_add_channel st b.id b.title b.dialog_type
  cases hfm : env.fetchMessages b.id
      (dialogOffset env cfg (check_and_add_channel st b.id b.title b.dialog_type) b.id)
      cfg.messageFetchLimit with
  | error e => rfl
  | ok msgs =>
      rcases hf with hf | hf
      · rw [hfm] at hf
        exact Except.noConfusion hf
      · simp [processFetched, hf]

/-- C3: a connect or dialog-listing failure ends the run with the store
untouched; a failure while checking/adding one channel, or while fetching or
saving its messages, skips exactly that channel (the check/add failure leaves
the store as it was, the message-block failure leaves only the already-
committed channel row) while every dialog after it in the list is still
folded over. -/
theorem failure_containment (env : Env) (cfg : Config) (st : Store)
    (l1 l2 : List DialogInfo) (b : DialogInfo) (hdbg : cfg.debugMode = false) :
    (env.connectOk = false → run env cfg st = st) ∧
    (∀ e : Unit, env.dialogs = .error e → run env cfg st = st) ∧
    (env.connectOk = true → env.dialogs = .ok (l1 ++ b :: l2) →
      env.checkAddFails b.id = true →
      run env cfg st =
        l2.foldl (fun s d => processDialog env cfg s d)
          (l1.foldl (fun s d => processDialog env cfg s d) st)) ∧
    (env.connectOk = true → env.dialogs = .ok (l1 ++ b :: l2) →
      env.checkAddFails b.id = false →
      (env.fetchMessages b.id
          (dialogOffset env cfg
            (check_and_add_channel (l1.foldl (fun s d => processDialog env cfg s d) st)
              b.id b.title b.dialog_type) b.id)
          cfg.messageFetchLimit = .error () ∨
        env.addMessagesFails b.id = true) →
      run env cfg st =
        l2.foldl (fun s d => processDialog env cfg s d)
          (check_and_add_channel (l1.foldl (fun s d => processDialog env cfg s d) st)
            b.id b.title b.dialog_type)) := by
  refine ⟨?_, ?_, ?_, ?_⟩
  · intro h
    simp [run, h]
  · intro e he
    unfold run
    rw [he]
    split
    · rfl
    · rfl
  · intro hc hd hb
    unfold run
    rw [hd]
    simp only [hc, if_true]
    rw [hdbg]
    simp only [Bool.false_eq_true, if_false]
    show (l1 ++ b :: l2).foldl (fun s d => processDialog env cfg s d) st = _
    rw [List.foldl_append, List.foldl_cons,
        processDialog_checkAddFails env cfg _ b hb]
  · intro hc hd hb hf
    unfold run
    rw [hd]
    simp only [hc, if_true]
    rw [hdbg]
    simp only [Bool.false_eq_true, if_false]
    show (l1 ++ b :: l2).foldl (fun s d => processDialog env cfg s d) st = _
    rw [List.foldl_append, List.foldl_cons,
        processDialog_msg_block_fails env cfg _ b hb hf]

/-- C3 witness: with `check_and_add_channel` raising on the only listed
dialog (id 100), the run leaves the empty store untouched. -/
theorem failure_containment_witness :
    run checkAddFailEnv plainConfig emptyStore = emptyStore :=
  (failure_containment checkAddFailEnv plainConfig emptyStore [] [] exampleDialog
    rfl).2.2.1 rfl rfl (by decide)

/-! ## Claim C4: the channel row precedes every content row -/

theorem check_and_add_messages (st : Store) (i : Int) (t ty : String) :
    (check_and_add_channel st i t ty).messages = st.messages := by
  obtain ⟨dts, ndt, dls, h⟩ := check_and_add_channel_shape st i t ty
  rw [h]

theorem check_and_add_attachments (st : Store) (i : Int) (t ty : String) :
    (check_and_add_channel st i t ty).attachments = st.attachments := by
  obtain ⟨dts, ndt, dls, h⟩ := check_and_add_channel_shape st i t ty
  rw [h]

theorem check_and_add_replies (st : Store) (i : Int) (t ty : String) :
    (check_and_add_channel st i t ty).replies = st.replies := by
  obtain ⟨dts, ndt, dls, h⟩ := check_and_add_channel_shape st i t ty
  rw [h]

theorem check_and_add_mem (st : Store) (i : Int) (t ty : String) :
    (check_and_add_channel st i t ty).dialogs.any (fun d => d.id == i) = true := by
  unfold check_and_add_channel
  cases hf : st.dialogTypes.find? (fun q => q.2 == ty) with
  | some q =>
      dsimp only
      split
      · rename_i h; exact h
      · simp [List.any_append]
  | none =>
      dsimp only
      split
      · rename_i h; exact h
      · simp [List.any_append]

theorem any_dialogs_extends {st st' : Store} (h : Extends st st') {p : DialogRow → Bool}
    (hp : st.dialogs.any p = true) : st'.dialogs.any p = true := by
  obtain ⟨-, ⟨b, hb⟩, -, -, -, -⟩ := h
  rw [hb, List.any_append, hp, Bool.true_or]

theorem insertMessage_mem (st : Store) (ch : Int) (m : Msg) (row : MessageRow)
    (h : row ∈ (insertMessage st ch m).messages) :
    row ∈ st.messages ∨ row.dialog_id = ch := by
  revert h
  unfold insertMessage
  split
  · exact fun h => Or.inl h
  · intro h
    rcases List.mem_append.mp h with h1 | h1
    · exact Or.inl h1
    · rcases List.mem_singleton.mp h1 with rfl
      exact Or.inr rfl

theorem add_messages_mem (ch : Int) (l : List Msg) :
    ∀ (st : Store) (row : MessageRow),
      row ∈ (add_messages st ch l).messages → row ∈ st.messages ∨ row.dialog_id = ch := by
  induction l with
  | nil => intro st row h; exact Or.inl h
  | cons m ms ih =>
      intro st row h
      rcases ih (insertMessage st ch m) row h with h1 | h1
      · exact insertMessage_mem st ch m row h1
      · exact Or.inr h1

theorem insertMessage_attachments (st : Store) (ch : Int) (m : Msg) :
    (insertMessage st ch m).attachments = st.attachments := by
  obtain ⟨ms, h⟩ := insertMessage_shape st ch m
  rw [h]

theorem insertMessage_replies (st : Store) (ch : Int) (m : Msg) :
    (insertMessage st ch m).replies = st.replies := by
  obtain ⟨ms, h⟩ := insertMessage_shape st ch m
  rw [h]

theorem add_messages_attachments (st : Store) (ch : Int) (l : List Msg) :
    (add_messages st ch l).attachments = st.attachments :=
  foldl_preserve _ _ (fun s m => insertMessage_attachments s ch m) l st

theorem add_messages_replies (st : Store) (ch : Int) (l : List Msg) :
    (add_messages st ch l).replies = st.replies :=
  foldl_preserve _ _ (fun s m => insertMessage_replies s ch m) l st

theorem add_attachment_type_messages (st : Store) (ty : String) :
    (add_attachment_type st ty).2.messages = st.messages := by
  obtain ⟨ats, nat, h⟩ := add_attachment_type_shape st ty
  rw [h]

theorem add_attachment_messages (st : Store) (a mi di : Int) (tid : Nat) (fp : String) :
    (add_attachment st a mi di tid fp).messages = st.messages := by
  obtain ⟨l, h⟩ := add_attachment_shape st a mi di tid fp
  rw [h]

theorem processAttachment_messages (env : Env) (cfg : Config) (d mi : Int)
    (st : Store) (a : AttDesc) :
    (processAttachment env cfg d mi st a).messages = st.messages := by
  unfold processAttachment
  split
  · rfl
  · rw [add_attachment_messages, add_attachment_type_messages]

theorem processReply_messages (d mi last : Int) (st : Store) (r : ReplyDesc) :
    (processReply d mi last st r).messages = st.messages := by
  unfold processReply
  split
  · obtain ⟨l, h⟩ := add_reply_shape st r.id d mi r.reply_to_dialog_id
      r.reply_to_message_id r.content r.sender_id r.date
    rw [h]
  · rfl

theorem processReplies_messages (env : Env) (d mi : Int) (st : Store)
    (r : Except Unit (List RawReply)) :
    (processReplies env d mi st r).messages = st.messages := by
  cases r with
  | error e => rfl
  | ok thread =>
      exact foldl_preserve _ _ (fun s x => processReply_messages d mi _ s x) _ st

theorem processMessage_messages (env : Env) (cfg : Config) (d : Int)
    (st : Store) (m : Msg) :
    (processMessage env cfg d st m).messages = st.messages := by
  unfold processMessage
  have hatt : ((get_message_attachments m).foldl
      (fun s a => processAttachment env cfg d m.id s a) st).messages = st.messages :=
    foldl_preserve _ _ (fun s a => processAttachment_messages env cfg d m.id s a) _ st
  cases m.replies with
  | none => exact hatt
  | some ri =>
      dsimp only
      split
      · rw [processReplies_messages]
        exact hatt
      · exact hatt

theorem message_fold_messages (env : Env) (cfg : Config) (d : Int)
    (msgs : List Msg) (st : Store) :
    ((msgs.foldl (fun s m => processMessage env cfg d s m) st).messages) = st.messages :=
  foldl_preserve _ _ (fun s m => processMessage_messages env cfg d s m) msgs st

theorem processReplies_replies_mem (env : Env) (d mi : Int) (st : Store)
    (r : Except Unit (List RawReply)) (row : ReplyRow)
    (h : row ∈ (processReplies env d mi st r).replies) :
    row ∈ st.replies ∨ row.main_dialog_id = d := by
  cases r with
  | error e => exact Or.inl h
  | ok thread =>
      rcases reply_fold_mem d mi _ (get_message_replies thread) st row h with h1 | ⟨r', _, _, heq⟩
      · exact Or.inl h1
      · rw [heq]
        exact Or.inr rfl

theorem processMessage_replies_mem (env : Env) (cfg : Config) (d : Int)
    (st : Store) (m : Msg) (row : ReplyRow)
    (h : row ∈ (processMessage env cfg d st m).replies) :
    row ∈ st.replies ∨ row.main_dialog_id = d := by
  revert h
  unfold processMessage
  have hatt := attachments_fold_replies env cfg d m.id (get_message_attachments m) st
  cases m.replies with
  | none => intro h; rw [hatt] at h; exact Or.inl h
  | some ri =>
      dsimp only
      split
      · intro h
        rcases processReplies_replies_mem env d m.id _ _ row h with h1 | h1
        · rw [hatt] at h1; exact Or.inl h1
        · exact Or.inr h1
      · intro h; rw [hatt] at h; exact Or.inl h

theorem message_fold_attachments_mem (env : Env) (cfg : Config) (d : Int)
    (msgs : List Msg) :
    ∀ (st : Store) (row : AttachmentRow),
      row ∈ ((msgs.foldl (fun s m => processMessage env cfg d s m) st).attachments) →
      row ∈ st.attachments ∨ row.dialog_id = d := by
  induction msgs with
  | nil => intro st row h; exact Or.inl h
  | cons m ms ih =>
      intro st row h
      rcases ih (processMessage env cfg d st m) row h with h1 | h1
      · rcases processMessage_attachments_mem env cfg d st m row h1 with h2 | ⟨a, _, _, _, hd⟩
        · exact Or.inl h2
        · exact Or.inr hd
      · exact Or.inr h1

theorem message_fold_replies_mem (env : Env) (cfg : Config) (d : Int)
    (msgs : List Msg) :
    ∀ (st : Store) (row : ReplyRow),
      row ∈ ((msgs.foldl (fun s m => processMessage env cfg d s m) st).replies) →
      row ∈ st.replies ∨ row.main_dialog_id = d := by
  induction msgs with
  | nil => intro st row h; exact Or.inl h
  | cons m ms ih =>
      intro st row h
      rcases ih (processMessage env cfg d st m) row h with h1 | h1
      · exact processMessage_replies_mem env cfg d st m row h1
      · exact Or.inr h1

theorem processFetched_messages_mem (env : Env) (cfg : Config) (d : Int)
    (st1 : Store) (r : Except Unit (List Msg)) (row : MessageRow)
    (h : row ∈ (processFetched env cfg d st1 r).messages) :
    row ∈ st1.messages ∨ row.dialog_id = d := by
  cases r with
  | error e => exact Or.inl h
  | ok msgs =>
      revert h
      unfold processFetched
      dsimp only
      split
      · exact fun h => Or.inl h
      · intro h
        have h2 : row ∈ ((msgs.foldl (fun s m => processMessage env cfg d s m)
            (add_messages st1 d msgs)).messages) := h
        rw [message_fold_messages env cfg d msgs (add_messages st1 d msgs)] at h2
        exact add_messages_mem d msgs st1 row h2

theorem processFetched_attachments_mem (env : Env) (cfg : Config) (d : Int)
    (st1 : Store) (r : Except Unit (List Msg)) (row : AttachmentRow)
    (h : row ∈ (processFetched env cfg d st1 r).attachments) :
    row ∈ st1.attachments ∨ row.dialog_id = d := by
  cases r with
  | error e => exact Or.inl h
  | ok msgs =>
      revert h
      unfold processFetched
      dsimp only
      split
      · exact fun h => Or.inl h
      · intro h
        have h2 : row ∈ ((msgs.foldl (fun s m => processMessage env cfg d s m)
            (add_messages st1 d msgs)).attachments) := h
        rcases message_fold_attachments_mem env cfg d msgs (add_messages st1 d msgs) row h2
          with h3 | h3
        · rw [add_messages_attachments] at h3
          exact Or.inl h3
        · exact Or.inr h3

theorem processFetched_replies_mem (env : Env) (cfg : Config) (d : Int)
    (st1 : Store) (r : Except Unit (List Msg)) (row : ReplyRow)
    (h : row ∈ (processFetched env cfg d st1 r).replies) :
    row ∈ st1.replies ∨ row.main_dialog_id = d := by
  cases r with
  | error e => exact Or.inl h
  | ok msgs =>
      revert h
      unfold processFetched
      dsimp only
      split
      · exact fun h => Or.inl h
      · intro h
        have h2 : row ∈ ((msgs.foldl (fun s m => processMessage env cfg d s m)
            (add_messages st1 d msgs)).replies) := h
        rcases message_fold_replies_mem env cfg d msgs (add_messages st1 d msgs) row h2
          with h3 | h3
        · rw [add_messages_replies] at h3
          exact Or.inl h3
        · exact Or.inr h3

theorem processDialog_eq_of_ok (env : Env) (cfg : Config) (st : Store)
    (dlg : DialogInfo) (hb : env.checkAddFails dlg.id = false) :
    processDialog env cfg st dlg =
      processFetched env cfg dlg.id (check_and_add_channel st dlg.id dlg.title dlg.dialog_type)
        (env.fetchMessages dlg.id
          (dialogOffset env cfg (check_and_add_channel st dlg.id dlg.title dlg.dialog_type) dlg.id)
          cfg.messageFetchLimit) := by
  unfold processDialog
  rw [hb]
  simp only [Bool.false_eq_true, if_false]

/-- C4: in every run and for every channel, the orchestrator's control flow
guarantees a `Dialogs` row with the channel's id before any content row
referencing the channel is written: `check_and_add_channel` leaves the
`Dialogs` row present while touching no content table, and every `Messages`,
`Attachments` or `Replies` row newly written while processing the channel
references the channel's id and coexists with its `Dialogs` row. -/
theorem channel_row_before_content_rows (env : Env) (cfg : Config) (st : Store)
    (dlg : DialogInfo) (hb : env.checkAddFails dlg.id = false) :
    ((check_and_add_channel st dlg.id dlg.title dlg.dialog_type).dialogs.any
        (fun dr => dr.id == dlg.id) = true) ∧
    ((check_and_add_channel st dlg.id dlg.title dlg.dialog_type).messages = st.messages ∧
      (check_and_add_channel st dlg.id dlg.title dlg.dialog_type).attachments = st.attachments ∧
      (check_and_add_channel st dlg.id dlg.title dlg.dialog_type).replies = st.replies) ∧
    (∀ row ∈ (processDialog env cfg st dlg).messages,
        row ∈ st.messages ∨ (row.dialog_id = dlg.id ∧
          (processDialog env cfg st dlg).dialogs.any (fun dr => dr.id == dlg.id) = true)) ∧
    (∀ row ∈ (processDialog env cfg st dlg).attachments,
        row ∈ st.attachments ∨ (row.dialog_id = dlg.id ∧
          (processDialog env cfg st dlg).dialogs.any (fun dr => dr.id == dlg.id) = true)) ∧
    (∀ row ∈ (processDialog env cfg st dlg).replies,
        row ∈ st.replies ∨ (row.main_dialog_id = dlg.id ∧
          (processDialog env cfg st dlg).dialogs.any (fun dr => dr.id == dlg.id) = true)) := by
  have heq := processDialog_eq_of_ok env cfg st dlg hb
  have hpres : (processDialog env cfg st dlg).dialogs.any (fun dr => dr.id == dlg.id) = true := by
    rw [heq]
    exact any_dialogs_extends (extends_processFetched env cfg dlg.id _ _)
      (check_and_add_mem st dlg.id dlg.title dlg.dialog_type)
  refine ⟨check_and_add_mem st dlg.id dlg.title dlg.dialog_type,
          ⟨check_and_add_messages st dlg.id dlg.title dlg.dialog_type,
           check_and_add_attachments st dlg.id dlg.title dlg.dialog_type,
           check_and_add_replies st dlg.id dlg.title dlg.dialog_type⟩, ?_, ?_, ?_⟩
  · intro row h
    rw [heq] at h
    rcases processFetched_messages_mem env cfg dlg.id _ _ row h with h1 | h1
    · rw [check_and_add_messages st dlg.id dlg.title dlg.dialog_type] at h1
      exact Or.inl h1
    · exact Or.inr ⟨h1, hpres⟩
  · intro row h
    rw [heq] at h
    rcases processFetched_attachments_mem env cfg dlg.id _ _ row h with h1 | h1
    · rw [check_and_add_attachments st dlg.id dlg.title dlg.dialog_type] at h1
      exact Or.inl h1
    · exact Or.inr ⟨h1, hpres⟩
  · intro row h
    rw [heq] at h
    rcases processFetched_replies_mem env cfg dlg.id _ _ row h with h1 | h1
    · rw [check_and_add_replies st dlg.id dlg.title dlg.dialog_type] at h1
      exact Or.inl h1
    · exact Or.inr ⟨h1, hpres⟩

/-- C4 witness: after the check/add step for dialog 100 on the empty store,
the `Dialogs` row with id 100 is present (and no content row has been
written). -/
theorem channel_row_before_content_rows_witness :
    (check_and_add_channel emptyStore exampleDialog.id exampleDialog.title
        exampleDialog.dialog_type).dialogs.any (fun dr => dr.id == exampleDialog.id) = true :=
  (channel_row_before_content_rows noFailEnv plainConfig emptyStore exampleDialog rfl).1

/-! ## Claim C2: watermark monotonicity -/

theorem lastMsg_congr {st st' : Store} (h : st'.messages = st.messages) (d : Int) :
    lastStoredMessageId st' d = lastStoredMessageId st d := by
  unfold lastStoredMessageId
  rw [h]

theorem lastReply_congr {st st' : Store} (h : st'.replies = st.replies) (dd mm : Int) :
    lastStoredReplyId st' dd mm = lastStoredReplyId st dd mm := by
  unfold lastStoredReplyId
  rw [h]

theorem filter_nil_of_append {α : Type} (p : α → Bool) (A B : List α)
    (h : (A ++ B).filter p = []) : A.filter p = [] := by
  rw [List.filter_append] at h
  exact (List.append_eq_nil.mp h).1

theorem insertMessage_watermark_mono (st : Store) (ch : Int) (m : Msg) (d off : Int)
    (hm : off < m.id)
    (hemp : (ch == d) = true →
      st.messages.filter (fun r => r.dialog_id == d) = [] → 0 ≤ off) :
    lastStoredMessageId st d ≤ lastStoredMessageId (insertMessage st ch m) d := by
  unfold insertMessage
  split
  · exact le_refl _
  · show lastStoredMessageId st d ≤ lastStoredMessageId
      { st with messages :=
          st.messages ++ [⟨m.id, ch, m.message.getD "", m.date, m.grouped_id⟩] } d
    unfold lastStoredMessageId
    simp only [List.filter_append, List.map_append]
    by_cases hch : (ch == d) = true
    · have hB : ([(⟨m.id, ch, m.message.getD "", m.date, m.grouped_id⟩ : MessageRow)].filter
          (fun r => r.dialog_id == d)).map (fun r => r.id) = [m.id] := by
        simp only [List.filter_cons, List.filter_nil]
        rw [if_pos hch]
        rfl
      rw [hB]
      by_cases hA : st.messages.filter (fun r => r.dialog_id == d) = []
      · rw [hA]
        simp only [List.map_nil, List.nil_append]
        exact le_of_lt (lt_of_le_of_lt (hemp hch hA) hm)
      · apply listMaxD_le_append_of_ne_nil
        intro hmap
        exact hA (List.map_eq_nil_iff.mp hmap)
    · have hB : ([(⟨m.id, ch, m.message.getD "", m.date, m.grouped_id⟩ : MessageRow)].filter
          (fun r => r.dialog_id == d)) = [] := by
        simp only [List.filter_cons, List.filter_nil]
        rw [if_neg hch]
      rw [hB]
      simp only [List.map_nil, List.append_nil]
      exact le_refl _

theorem add_messages_watermark_mono (ch off : Int) (l : List Msg)
    (hl : ∀ m ∈ l, off < m.id) :
    ∀ (st : Store) (d : Int),
      ((ch == d) = true → st.messages.filter (fun r => r.dialog_id == d) = [] → 0 ≤ off) →
      lastStoredMessageId st d ≤ lastStoredMessageId (add_messages st ch l) d := by
  induction l with
  | nil => intro st d _; exact le_refl _
  | cons m ms ih =>
      intro st d hemp
      have hm : off < m.id := hl m (List.mem_cons_self m ms)
      have step1 : lastStoredMessageId st d ≤ lastStoredMessageId (insertMessage st ch m) d :=
        insertMessage_watermark_mono st ch m d off hm hemp
      have hgrow : (ch == d) = true →
          (insertMessage st ch m).messages.filter (fun r => r.dialog_id == d) = [] →
          0 ≤ off := by
        intro hch hnil
        obtain ⟨ms', hms'⟩ := insertMessage_shape st ch m
        rw [hms'] at hnil
        exact hemp hch (filter_nil_of_append _ _ _ hnil)
      have step2 := ih (fun x hx => hl x (List.mem_cons_of_mem m hx))
        (insertMessage st ch m) d hgrow
      exact le_trans step1 step2

theorem processReply_reply_watermark_mono (d mid last : Int) (st : Store) (r : ReplyDesc)
    (dd mm : Int)
    (hemp : ((d == dd) && (mid == mm)) = true →
      st.replies.filter (fun q => q.main_dialog_id == dd && q.main_message_id == mm) = [] →
      0 ≤ last) :
    lastStoredReplyId st dd mm ≤ lastStoredReplyId (processReply d mid last st r) dd mm := by
  unfold processReply
  split
  · rename_i hgt
    unfold add_reply
    split
    · exact le_refl _
    · show lastStoredReplyId st dd mm ≤ lastStoredReplyId
        { st with replies :=
            st.replies ++ [⟨r.id, d, mid, r.reply_to_dialog_id, r.reply_to_message_id,
                            r.content, r.sender_id, r.date⟩] } dd mm
      unfold lastStoredReplyId
      simp only [List.filter_append, List.map_append]
      by_cases hp : ((d == dd) && (mid == mm)) = true
      · have hB : ([(⟨r.id, d, mid, r.reply_to_dialog_id, r.reply_to_message_id,
              r.content, r.sender_id, r.date⟩ : ReplyRow)].filter
            (fun q => q.main_dialog_id == dd && q.main_message_id == mm)).map
              (fun q => q.id) = [r.id] := by
          simp only [List.filter_cons, List.filter_nil]
          rw [if_pos hp]
          rfl
        rw [hB]
        by_cases hA : st.replies.filter
            (fun q => q.main_dialog_id == dd && q.main_message_id == mm) = []
        · rw [hA]
          simp only [List.map_nil, List.nil_append]
          exact le_of_lt (lt_of_le_of_lt (hemp hp hA) hgt)
        · apply listMaxD_le_append_of_ne_nil
          intro hmap
          exact hA (List.map_eq_nil_iff.mp hmap)
      · have hB : ([(⟨r.id, d, mid, r.reply_to_dialog_id, r.reply_to_message_id,
              r.content, r.sender_id, r.date⟩ : ReplyRow)].filter
            (fun q => q.main_dialog_id == dd && q.main_message_id == mm)) = [] := by
          simp only [List.filter_cons, List.filter_nil]
          rw [if_neg hp]
        rw [hB]
        simp only [List.map_nil, List.append_nil]
        exact le_refl _
  · exact le_refl _

theorem reply_fold_watermark_mono (d mid last : Int) (rs : List ReplyDesc) :
    ∀ (st : Store) (dd mm : Int),
      (((d == dd) && (mid == mm)) = true →
        st.replies.filter (fun q => q.main_dialog_id == dd && q.main_message_id == mm) = [] →
        0 ≤ last) →
      lastStoredReplyId st dd mm ≤
        lastStoredReplyId (rs.foldl (fun s r => processReply d mid last s r) st) dd mm := by
  induction rs with
  | nil => intro st dd mm _; exact le_refl _
  | cons r rest ih =>
      intro st dd mm hemp
      have step1 := processReply_reply_watermark_mono d mid last st r dd mm hemp
      have hgrow : ((d == dd) && (mid == mm)) = true →
          (processReply d mid last st r).replies.filter
            (fun q => q.main_dialog_id == dd && q.main_message_id == mm) = [] →
          0 ≤ last := by
        intro hp hnil
        obtain ⟨-, -, -, -, -, ⟨f, hf⟩⟩ := extends_processReply d mid last st r
        rw [hf] at hnil
        exact hemp hp (filter_nil_of_append _ _ _ hnil)
      exact le_trans step1 (ih (processReply d mid last st r) dd mm hgrow)

theorem processMessage_reply_watermark_mono (env : Env) (cfg : Config) (d : Int)
    (st : Store) (m : Msg) (dd mm : Int) :
    lastStoredReplyId st dd mm ≤ lastStoredReplyId (processMessage env cfg d st m) dd mm := by
  unfold processMessage
  have hatt : ((get_message_attachments m).foldl
      (fun s a => processAttachment env cfg d m.id s a) st).replies = st.replies :=
    attachments_fold_replies env cfg d m.id (get_message_attachments m) st
  have hatteq := lastReply_congr hatt dd mm
  cases m.replies with
  | none => exact le_of_eq hatteq.symm
  | some ri =>
      dsimp only
      split
      · cases hfr : env.fetchReplies d m.id cfg.replyFetchLimit with
        | error e => exact le_of_eq hatteq.symm
        | ok thread =>
            rw [← hatteq]
            show lastStoredReplyId _ dd mm ≤ lastStoredReplyId
              (processReplies env d m.id _ (Except.ok thread)) dd mm
            unfold processReplies
            apply reply_fold_watermark_mono
            intro hp hnil
            simp only [Bool.and_eq_true] at hp
            rcases hp with ⟨hd, hm2⟩
            have hd' : d = dd := by simpa using hd
            have hm' : m.id = mm := by simpa using hm2
            subst hd'
            subst hm'
            unfold get_last_reply_id
            split
            · exact le_refl 0
            · unfold lastStoredReplyId
              rw [hnil]
              exact le_refl 0
      · exact le_of_eq hatteq.symm

theorem message_fold_reply_watermark_mono (env : Env) (cfg : Config) (d : Int)
    (msgs : List Msg) :
    ∀ (st : Store) (dd mm : Int),
      lastStoredReplyId st dd mm ≤
        lastStoredReplyId (msgs.foldl (fun s m => processMessage env cfg d s m) st) dd mm := by
  induction msgs with
  | nil => intro st dd mm; exact le_refl _
  | cons m ms ih =>
      intro st dd mm
      exact le_trans (processMessage_reply_watermark_mono env cfg d st m dd mm)
        (ih (processMessage env cfg d st m) dd mm)

theorem dialogOffset_nonneg (env : Env) (cfg : Config) (st1 : Store) (i : Int)
    (h : lastStoredMessageId st1 i = 0) : 0 ≤ dialogOffset env cfg st1 i := by
  unfold dialogOffset get_last_message_id
  by_cases herr : env.msgWatermarkErr i = true
  · rw [if_pos herr]
    by_cases hdbg : cfg.debugMode = true
    · rw [if_pos hdbg]
      exact le_max_of_le_right (le_refl (0 : Int))
    · rw [if_neg hdbg]
  · rw [if_neg herr, h]
    by_cases hdbg : cfg.debugMode = true
    · rw [if_pos hdbg]
      exact le_max_of_le_right (le_refl (0 : Int))
    · rw [if_neg hdbg]

theorem processDialog_message_watermark_mono (env : Env) (cfg : Config)
    (honors : ∀ (i off : Int) (lim : Nat) (l : List Msg) (m : Msg),
      env.fetchMessages i off lim = .ok l → m ∈ l → off < m.id)
    (st : Store) (dlg : DialogInfo) (d : Int) :
    lastStoredMessageId st d ≤ lastStoredMessageId (processDialog env cfg st dlg) d := by
  by_cases hb : env.checkAddFails dlg.id = true
  · rw [processDialog_checkAddFails env cfg st dlg hb]
  · have hb' : env.checkAddFails dlg.id = false := by simpa using hb
    rw [processDialog_eq_of_ok env cfg st dlg hb']
    have hchk : lastStoredMessageId
        (check_and_add_channel st dlg.id dlg.title dlg.dialog_type) d =
        lastStoredMessageId st d :=
      lastMsg_congr (check_and_add_messages st dlg.id dlg.title dlg.dialog_type) d
    cases hfm : env.fetchMessages dlg.id
        (dialogOffset env cfg (check_and_add_channel st dlg.id dlg.title dlg.dialog_type) dlg.id)
        cfg.messageFetchLimit with
    | error e => exact le_of_eq hchk.symm
    | ok msgs =>
        by_cases haf : env.addMessagesFails dlg.id = true
        · have heq1 : processFetched env cfg dlg.id
              (check_and_add_channel st dlg.id dlg.title dlg.dialog_type)
              (Except.ok msgs) =
              check_and_add_channel st dlg.id dlg.title dlg.dialog_type := by
            simp [processFetched, haf]
          rw [heq1]
          exact le_of_eq hchk.symm
        · have haf' : env.addMessagesFails dlg.id = false := by simpa using haf
          have heq2 : processFetched env cfg dlg.id
              (check_and_add_channel st dlg.id dlg.title dlg.dialog_type)
              (Except.ok msgs) =
              msgs.foldl (fun s m => processMessage env cfg dlg.id s m)
                (add_messages (check_and_add_channel st dlg.id dlg.title dlg.dialog_type)
                  dlg.id msgs) := by
            simp [processFetched, haf']
          rw [heq2]
          have hfold : lastStoredMessageId
              (msgs.foldl (fun s m => processMessage env cfg dlg.id s m)
                (add_messages (check_and_add_channel st dlg.id dlg.title dlg.dialog_type)
                  dlg.id msgs)) d =
              lastStoredMessageId
                (add_messages (check_and_add_channel st dlg.id dlg.title dlg.dialog_type)
                  dlg.id msgs) d :=
            lastMsg_congr (message_fold_messages env cfg dlg.id msgs _) d
          rw [hfold, ← hchk]
          apply add_messages_watermark_mono dlg.id _ msgs
            (fun x hx => honors dlg.id _ cfg.messageFetchLimit msgs x hfm hx)
          intro hch hnil
          have hd' : dlg.id = d := by simpa using hch
          subst hd'
          have hzero : lastStoredMessageId
              (check_and_add_channel st dlg.id dlg.title dlg.dialog_type) dlg.id = 0 := by
            unfold lastStoredMessageId
            rw [hnil]
            rfl
          exact dialogOffset_nonneg env cfg _ dlg.id hzero

theorem processDialog_reply_watermark_mono (env : Env) (cfg : Config)
    (st : Store) (dlg : DialogInfo) (dd mm : Int) :
    lastStoredReplyId st dd mm ≤ lastStoredReplyId (processDialog env cfg st dlg) dd mm := by
  by_cases hb : env.checkAddFails dlg.id = true
  · rw [processDialog_checkAddFails env cfg st dlg hb]
  · have hb' : env.checkAddFails dlg.id = false := by simpa using hb
    rw [processDialog_eq_of_ok env cfg st dlg hb']
    have hchk := lastReply_congr (check_and_add_replies st dlg.id dlg.title dlg.dialog_type) dd mm
    cases hfm : env.fetchMessages dlg.id
        (dialogOffset env cfg (check_and_add_channel st dlg.id dlg.title dlg.dialog_type) dlg.id)
        cfg.messageFetchLimit with
    | error e => exact le_of_eq hchk.symm
    | ok msgs =>
        by_cases haf : env.addMessagesFails dlg.id = true
        · have heq1 : processFetched env cfg dlg.id
              (check_and_add_channel st dlg.id dlg.title dlg.dialog_type)
              (Except.ok msgs) =
              check_and_add_channel st dlg.id dlg.title dlg.dialog_type := by
            simp [processFetched, haf]
          rw [heq1]
          exact le_of_eq hchk.symm
        · have haf' : env.addMessagesFails dlg.id = false := by simpa using haf
          have heq2 : processFetched env cfg dlg.id
              (check_and_add_channel st dlg.id dlg.title dlg.dialog_type)
              (Except.ok msgs) =
              msgs.foldl (fun s m => processMessage env cfg dlg.id s m)
                (add_messages (check_and_add_channel st dlg.id dlg.title dlg.dialog_type)
                  dlg.id msgs) := by
            simp [processFetched, haf']
          rw [heq2]
          have hadd := lastReply_congr
            (add_messages_replies (check_and_add_channel st dlg.id dlg.title dlg.dialog_type)
              dlg.id msgs) dd mm
          calc lastStoredReplyId st dd mm
              = lastStoredReplyId
                  (check_and_add_channel st dlg.id dlg.title dlg.dialog_type) dd mm :=
                hchk.symm
            _ = lastStoredReplyId
                  (add_messages (check_and_add_channel st dlg.id dlg.title dlg.dialog_type)
                    dlg.id msgs) dd mm := hadd.symm
            _ ≤ _ := message_fold_reply_watermark_mono env cfg dlg.id msgs _ dd mm

theorem dialog_fold_message_watermark_mono (env : Env) (cfg : Config)
    (honors : ∀ (i off : Int) (lim : Nat) (l : List Msg) (m : Msg),
      env.fetchMessages i off lim = .ok l → m ∈ l → off < m.id)
    (ds : List DialogInfo) :
    ∀ (st : Store) (d : Int),
      lastStoredMessageId st d ≤
        lastStoredMessageId (ds.foldl (fun s x => processDialog env cfg s x) st) d := by
  induction ds with
  | nil => intro st d; exact le_refl _
  | cons x xs ih =>
      intro st d
      exact le_trans (processDialog_message_watermark_mono env cfg honors st x d)
        (ih (processDialog env cfg st x) d)

theorem dialog_fold_reply_watermark_mono (env : Env) (cfg : Config)
    (ds : List DialogInfo) :
    ∀ (st : Store) (dd mm : Int),
      lastStoredReplyId st dd mm ≤
        lastStoredReplyId (ds.foldl (fun s x => processDialog env cfg s x) st) dd mm := by
  induction ds with
  | nil => intro st dd mm; exact le_refl _
  | cons x xs ih =>
      intro st dd mm
      exact le_trans (processDialog_reply_watermark_mono env cfg st x dd mm)
        (ih (processDialog env cfg st x) dd mm)

/-- C2: across a run against a source whose message listing honors the
id-offset (every returned message id exceeds the requested offset, as the
adapter's `get_new_dialog_messages` contract states), the per-channel message
watermark and the per-(channel, message) reply watermark read back by the
gateway never decrease.  The reply side needs no source-side hypothesis: the
orchestrator's own strictly-greater filter enforces it. -/
theorem watermarks_monotone (env : Env) (cfg : Config) (st : Store)
    (honors : ∀ (i off : Int) (lim : Nat) (l : List Msg) (m : Msg),
      env.fetchMessages i off lim = .ok l → m ∈ l → off < m.id) :
    (∀ d : Int,
      get_last_message_id st d false ≤ get_last_message_id (run env cfg st) d false) ∧
    (∀ dd mm : Int,
      get_last_reply_id st dd mm false ≤ get_last_reply_id (run env cfg st) dd mm false) := by
  constructor
  · intro d
    show lastStoredMessageId st d ≤ lastStoredMessageId (run env cfg st) d
    unfold run
    split
    · cases hds : env.dialogs with
      | error e => exact le_refl _
      | ok ds => exact dialog_fold_message_watermark_mono env cfg honors _ st d
    · exact le_refl _
  · intro dd mm
    show lastStoredReplyId st dd mm ≤ lastStoredReplyId (run env cfg st) dd mm
    unfold run
    split
    · cases hds : env.dialogs with
      | error e => exact le_refl _
      | ok ds => exact dialog_fold_reply_watermark_mono env cfg _ st dd mm
    · exact le_refl _

/-- C2 witness: one run of the no-failure session on `msgStore` keeps both
watermarks at least where they were. -/
theorem watermarks_monotone_witness :
    get_last_message_id msgStore 1 false ≤
      get_last_message_id (run noFailEnv plainConfig msgStore) 1 false ∧
    get_last_reply_id msgStore 1 3 false ≤
      get_last_reply_id (run noFailEnv plainConfig msgStore) 1 3 false :=
  ⟨(watermarks_monotone noFailEnv plainConfig msgStore
      (by intro i off lim l m hf hm; injection hf with h; subst h; cases hm)).1 1,
   (watermarks_monotone noFailEnv plainConfig msgStore
      (by intro i off lim l m hf hm; injection hf with h; subst h; cases hm)).2 1 3⟩

/-! ## Claim C1: idempotent resume -/

theorem any_dialogTypes_extends {st st' : Store} (h : Extends st st')
    {p : DialogTypeRow → Bool} (hp : st.dialogTypes.any p = true) :
    st'.dialogTypes.any p = true := by
  obtain ⟨⟨a, ha⟩, -, -, -, -, -⟩ := h
  rw [ha, List.any_append, hp, Bool.true_or]

theorem check_and_add_type_mem (st : Store) (i : Int) (t ty : String) :
    (check_and_add_channel st i t ty).dialogTypes.any (fun q => q.2 == ty) = true := by
  unfold check_and_add_channel
  cases hf : st.dialogTypes.find? (fun q => q.2 == ty) with
  | some q =>
      dsimp only
      have hq : st.dialogTypes.any (fun q => q.2 == ty) = true := by
        rw [List.any_eq_true]
        refine ⟨q, List.mem_of_find?_eq_some hf, ?_⟩
        have h2 := List.find?_some hf
        simpa using h2
      split
      · exact hq
      · exact hq
  | none =>
      dsimp only
      split
      · simp [List.any_append]
      · simp [List.any_append]

theorem check_and_add_id (st : Store) (i : Int) (t ty : String)
    (hty : st.dialogTypes.any (fun q => q.2 == ty) = true)
    (hd : st.dialogs.any (fun dr => dr.id == i) = true) :
    check_and_add_channel st i t ty = st := by
  unfold check_and_add_channel
  cases hf : st.dialogTypes.find? (fun q => q.2 == ty) with
  | some q =>
      dsimp only
      rw [if_pos hd]
  | none =>
      exfalso
      rcases List.any_eq_true.mp hty with ⟨x, hx, hpx⟩
      exact absurd hpx (List.find?_eq_none.mp hf x hx)

theorem foldl_fixed {α : Type} (f : Store → α → Store) (l : List α) (b : Store)
    (h : ∀ x ∈ l, f b x = b) : l.foldl f b = b := by
  induction l with
  | nil => rfl
  | cons x xs ih =>
      rw [List.foldl_cons, h x (List.mem_cons_self x xs)]
      exact ih (fun y hy => h y (List.mem_cons_of_mem x hy))

theorem processDialog_id (env : Env) (cfg : Config) (st : Store) (dlg : DialogInfo)
    (hb : env.checkAddFails dlg.id = false)
    (hty : st.dialogTypes.any (fun q => q.2 == dlg.dialog_type) = true)
    (hd : st.dialogs.any (fun dr => dr.id == dlg.id) = true)
    (hfetch : env.fetchMessages dlg.id (dialogOffset env cfg st dlg.id)
        cfg.messageFetchLimit = .ok []) :
    processDialog env cfg st dlg = st := by
  rw [processDialog_eq_of_ok env cfg st dlg hb,
      check_and_add_id st dlg.id dlg.title dlg.dialog_type hty hd, hfetch]
  unfold processFetched
  dsimp only
  split
  · rfl
  · rfl

theorem dialog_fold_presence (env : Env) (cfg : Config) (ds : List DialogInfo)
    (hflags : ∀ dlg ∈ ds, env.checkAddFails dlg.id = false) :
    ∀ (st : Store), ∀ dlg ∈ ds,
      ((ds.foldl (fun s x => processDialog env cfg s x) st).dialogs.any
          (fun dr => dr.id == dlg.id) = true) ∧
      ((ds.foldl (fun s x => processDialog env cfg s x) st).dialogTypes.any
          (fun q => q.2 == dlg.dialog_type) = true) := by
  induction ds with
  | nil => intro st dlg h; cases h
  | cons x xs ih =>
      intro st dlg hmem
      rcases List.mem_cons.mp hmem with rfl | hmem'
      · have hb' := hflags dlg (List.mem_cons_self dlg xs)
        have hstep_d : (processDialog env cfg st dlg).dialogs.any
            (fun dr => dr.id == dlg.id) = true := by
          rw [processDialog_eq_of_ok env cfg st dlg hb']
          exact any_dialogs_extends (extends_processFetched env cfg dlg.id _ _)
            (check_and_add_mem st dlg.id dlg.title dlg.dialog_type)
        have hstep_t : (processDialog env cfg st dlg).dialogTypes.any
            (fun q => q.2 == dlg.dialog_type) = true := by
          rw [processDialog_eq_of_ok env cfg st dlg hb']
          exact any_dialogTypes_extends (extends_processFetched env cfg dlg.id _ _)
            (check_and_add_type_mem st dlg.id dlg.title dlg.dialog_type)
        have hext : Extends (processDialog env cfg st dlg)
            (xs.foldl (fun s x => processDialog env cfg s x) (processDialog env cfg st dlg)) :=
          extends_foldl _ (fun s y => extends_processDialog env cfg s y) xs _
        exact ⟨any_dialogs_extends hext hstep_d, any_dialogTypes_extends hext hstep_t⟩
      · exact ih (fun y hy => hflags y (List.mem_cons_of_mem x hy))
          (processDialog env cfg st x) dlg hmem'

/-- C1: idempotent resume.  After a successful pass (connect and dialog
listing succeed, no injected store failure), running the whole pass again
against the same remote — whose message listing honors the id-offset and
returns nothing above the watermark stored by the first pass — changes
nothing: the resulting store, hence every table and every derived watermark,
is identical. -/
theorem sync_run_idempotent (env : Env) (cfg : Config) (st : Store)
    (dl : List DialogInfo)
    (hconn : env.connectOk = true)
    (hdl : env.dialogs = .ok dl)
    (hchk : ∀ i : Int, env.checkAddFails i = false)
    (hwm : ∀ i : Int, env.msgWatermarkErr i = false)
    (hok : ∀ (i off : Int) (lim : Nat), ∃ l, env.fetchMessages i off lim = .ok l)
    (honors : ∀ (i off : Int) (lim : Nat) (l : List Msg) (m : Msg),
      env.fetchMessages i off lim = .ok l → m ∈ l → off < m.id)
    (hbound : ∀ (i off : Int) (lim : Nat) (l : List Msg) (m : Msg),
      env.fetchMessages i off lim = .ok l → m ∈ l →
      m.id ≤ get_last_message_id (run env cfg st) i false) :
    run env cfg (run env cfg st) = run env cfg st := by
  have hrun : ∀ s : Store, run env cfg s =
      (if cfg.debugMode then dl.filter (fun x => x.id == cfg.debugChannelId) else dl).foldl
        (fun a b => processDialog env cfg a b) s := by
    intro s
    unfold run
    rw [if_pos hconn, hdl]
  have hpres : ∀ dlg ∈ (if cfg.debugMode then
        dl.filter (fun x => x.id == cfg.debugChannelId) else dl),
      ((run env cfg st).dialogs.any (fun dr => dr.id == dlg.id) = true) ∧
      ((run env cfg st).dialogTypes.any (fun q => q.2 == dlg.dialog_type) = true) := by
    intro dlg hmem
    rw [hrun st]
    exact dialog_fold_presence env cfg _ (fun y _ => hchk y.id) st dlg hmem
  have hempty : ∀ i : Int,
      env.fetchMessages i (dialogOffset env cfg (run env cfg st) i)
        cfg.messageFetchLimit = .ok [] := by
    intro i
    obtain ⟨l, hl⟩ := hok i (dialogOffset env cfg (run env cfg st) i) cfg.messageFetchLimit
    cases l with
    | nil => exact hl
    | cons m ms =>
        exfalso
        have h1 := honors i _ _ _ m hl (List.mem_cons_self m ms)
        have h2 := hbound i _ _ _ m hl (List.mem_cons_self m ms)
        have h3 : get_last_message_id (run env cfg st) i false ≤
            dialogOffset env cfg (run env cfg st) i := by
          show lastStoredMessageId (run env cfg st) i ≤ _
          unfold dialogOffset get_last_message_id
          rw [hwm i]
          simp only [Bool.false_eq_true, if_false]
          by_cases hdbg : cfg.debugMode = true
          · rw [if_pos hdbg]
            exact le_max_right _ _
          · rw [if_neg hdbg]
        exact absurd h1 (not_lt.mpr (le_trans h2 h3))
  have hid : ∀ dlg ∈ (if cfg.debugMode then
        dl.filter (fun x => x.id == cfg.debugChannelId) else dl),
      processDialog env cfg (run env cfg st) dlg = run env cfg st := by
    intro dlg hmem
    exact processDialog_id env cfg (run env cfg st) dlg (hchk dlg.id)
      (hpres dlg hmem).2 (hpres dlg hmem).1 (hempty dlg.id)
  calc run env cfg (run env cfg st)
      = (if cfg.debugMode then dl.filter (fun x => x.id == cfg.debugChannelId) else dl).foldl
          (fun a b => processDialog env cfg a b) (run env cfg st) := hrun (run env cfg st)
    _ = run env cfg st := foldl_fixed _ _ _ hid

/-- C1 witness: a full pass over the one-dialog no-failure session is
idempotent on the empty store. -/
theorem sync_run_idempotent_witness :
    run noFailEnv plainConfig (run noFailEnv plainConfig emptyStore) =
      run noFailEnv plainConfig emptyStore :=
  sync_run_idempotent noFailEnv plainConfig emptyStore [exampleDialog] rfl rfl
    (fun _ => rfl) (fun _ => rfl)
    (fun _ _ _ => ⟨[], rfl⟩)
    (by intro i off lim l m hf hm; injection hf with h; subst h; cases hm)
    (by intro i off lim l m hf hm; injection hf with h; subst h; cases hm)
